import Mathlib

/-!
# Verification of the diagnostic flow validator / engine slice

Shallow embedding of the flow validator (`FlowValidator.ts`), condition
evaluator (`evaluateCondition` / `resolveMeasureBranch`), and session engine
(`flowEngine.ts`) of the diagnostic-engine repository.

Modelling conventions:
* JavaScript numbers are modelled as rationals (`ℚ`); `NaN` is modelled by
  `Option ℚ` at the points where the source can produce it (`Number(...)`,
  `parseFloat`).
* Wall-clock timestamps and generated session identifiers are opaque `String`
  parameters supplied by the caller at each operation.
* The persistence collaborator is modelled by an explicit, ordered list of
  `StorageWrite` actions emitted by each engine operation, in the order the
  source performs them.
* Thrown `FlowEngineError` / `FlowValidationError` values are modelled by
  structured error types with one constructor per throw site, carrying the
  data interpolated into the source's message.
-/

namespace Diag

/-- A JavaScript value supplied as a user response (`string | number | boolean`). -/
inductive Value : Type
  | vstr (s : String)
  | vnum (q : ℚ)
  | vbool (b : Bool)
  deriving DecidableEq, Repr

/-- Digit character to numeral. -/
def digitVal (c : Char) : ℕ := c.toNat - '0'.toNat

/-- Natural number denoted by a list of digit characters (most significant first). -/
def digitsToNat (l : List Char) : ℕ :=
  l.foldl (fun acc c => acc * 10 + digitVal c) 0

/-- JS `trim`: strip leading and trailing whitespace, on characters. -/
def trimChars (l : List Char) : List Char :=
  ((l.dropWhile Char.isWhitespace).reverse.dropWhile Char.isWhitespace).reverse

/-- JS `parseFloat` restricted to inputs drawn from the character class `[\d.]`
(the only inputs the condition evaluator ever passes): the longest prefix of
shape `digits [. digits]` or `. digits` is parsed; if neither an integer part
nor a fractional part has at least one digit the result is `NaN` (`none`).
The decimal `intPart.fracPart` is the rational
`(intPart ++ fracPart) / 10 ^ |fracPart|`. -/
def parseFloatDigitsDot (l : List Char) : Option ℚ :=
  let intPart := l.takeWhile Char.isDigit
  let rest := l.drop intPart.length
  let fracPart :=
    match rest with
    | '.' :: r => r.takeWhile Char.isDigit
    | _ => []
  if intPart.isEmpty ∧ fracPart.isEmpty then none
  else some (mkRat (digitsToNat (intPart ++ fracPart)) (10 ^ fracPart.length))

/-- JS `Number(x)` conversion of a string, restricted to plain optionally signed
decimal literals (the flows only ever supply those): whitespace-trimmed empty
string is `0`; otherwise the whole trimmed string must be `[+-] digits [. digits]`
or `[+-] . digits`; anything else is `NaN` (`none`). -/
def jsStringToNumber (s : String) : Option ℚ :=
  let t := trimChars s.data
  match t with
  | [] => some 0
  | _ =>
    let (neg, body) :=
      match t with
      | '-' :: r => (true, r)
      | '+' :: r => (false, r)
      | r => (false, r)
    let intPart := body.takeWhile Char.isDigit
    let rest := body.drop intPart.length
    let signed : ℕ → ℤ := fun m => if neg then -(m : ℤ) else (m : ℤ)
    match rest with
    | [] => if intPart.isEmpty then none else some (mkRat (signed (digitsToNat intPart)) 1)
    | '.' :: r =>
      let fracPart := r.takeWhile Char.isDigit
      if r.drop fracPart.length ≠ [] ∨ (intPart.isEmpty ∧ fracPart.isEmpty) then none
      else some (mkRat (signed (digitsToNat (intPart ++ fracPart))) (10 ^ fracPart.length))
    | _ => none

/-- JS `Number(value)` over the response value union: numbers pass through,
booleans coerce to `1`/`0`, strings parse as decimal literals (`none` = `NaN`). -/
def toNumber : Value → Option ℚ
  | .vnum q => some q
  | .vbool b => some (if b then 1 else 0)
  | .vstr s => jsStringToNumber s

/-- Smallest exponent `k ≤ bound` with `n * 10^k` divisible by `d`, if any. -/
def decimalExponent (n d : ℕ) : ℕ → Option ℕ
  | 0 => if n % d = 0 then some 0 else none
  | bound + 1 =>
    match decimalExponent n d bound with
    | some k => some k
    | none => if n * 10 ^ (bound + 1) % d = 0 then some (bound + 1) else none

/-- Renders a rational as JS renders the corresponding finite-decimal number:
integer part, and when needed a point followed by the (minimal) fraction
digits.  Rationals with no finite decimal expansion (which no flow produces:
measured values and thresholds are decimal literals) fall back to a
fraction rendering. -/
def ratToString (q : ℚ) : String :=
  let sign := if q < 0 then "-" else ""
  let n := q.num.natAbs
  let d := q.den
  match decimalExponent n d 30 with
  | none => sign ++ toString n ++ "/" ++ toString d
  | some 0 => sign ++ toString (n / d)
  | some k =>
    let scaled := n * 10 ^ k / d
    let digits := toString scaled
    let digits := (List.replicate (k + 1 - digits.length) '0').asString ++ digits
    let point := digits.length - k
    sign ++ (digits.data.take point).asString ++ "." ++ (digits.data.drop point).asString

/-- JS `String(value)` over the response value union. -/
def valueToString : Value → String
  | .vstr s => s
  | .vnum q => ratToString q
  | .vbool b => if b then "true" else "false"

-- ─── Flow data model (FlowValidator.ts types) ────────────────────────────────

/-- `validRange: { min, max }` of a MEASURE node. -/
structure ValidRange : Type where
  min : ℚ
  max : ℚ
  deriving DecidableEq, Repr

/-- One `{ condition, next }` entry of a MEASURE node's branch list. -/
structure MeasureBranch : Type where
  condition : String
  next : String
  deriving DecidableEq, Repr

/-- An artifact field value: flow artifacts are flat JSON objects whose values
are strings, arrays of strings, numbers or booleans. -/
inductive AValue : Type
  | str (s : String)
  | arr (items : List String)
  | num (q : ℚ)
  | bool (b : Bool)
  deriving DecidableEq, Repr

/-- A `FlowArtifact`: insertion-ordered flat mapping of field names to values. -/
abbrev Artifact : Type := List (String × AValue)

/-- First value bound to `key`, if present (JS object indexing). -/
def Artifact.get (a : Artifact) (key : String) : Option AValue :=
  (a.find? (fun e => e.1 = key)).map (·.2)

/-- A flow node — the closed four-variant union dispatched on the `type` tag. -/
inductive Node : Type
  | question (text : String) (answers : List (String × String))
  | safety (text : String) (next : String)
  | measure (text : String) (unit : Option String) (validRange : ValidRange)
      (branches : List MeasureBranch)
  | terminal (result : String) (artifact : Artifact)
  deriving DecidableEq, Repr

/-- The string `type` tag of a node. -/
def Node.typeTag : Node → String
  | .question .. => "QUESTION"
  | .safety .. => "SAFETY"
  | .measure .. => "MEASURE"
  | .terminal .. => "TERMINAL"

/-- The `nodes` field of a raw flow document: either the dictionary encoding or
the (id-tagged) array encoding — `Record<string, FlowNode> | FlowNode[]`. -/
inductive RawNodes : Type
  | dict (entries : List (String × Node))
  | arr (entries : List (String × Node))
  deriving DecidableEq, Repr

/-- A raw flow document as handed to the validator / engine constructor. -/
structure RawFlow : Type where
  flowId : String
  flowVersion : String
  startNode : String
  title : Option String := none
  nodes : RawNodes
  deriving DecidableEq, Repr

/-- The underlying id → node association of either encoding. -/
def RawFlow.entries (f : RawFlow) : List (String × Node) :=
  match f.nodes with
  | .dict l => l
  | .arr l => l

/-- Modelled from the spec: `FlowValidator.resolveNodes` is called by the
engine constructor ("Resolve nodes once — handles both dict and array
formats") but its definition is not part of this slice.  Per the spec both
encodings normalise to the same internal id → node mapping; for the dictionary
encoding (the only one the validator accepts) that mapping is the dictionary
itself. -/
def resolveNodes (f : RawFlow) : List (String × Node) :=
  f.entries

/-- JS `this.nodes[id]` lookup on the resolved node mapping. -/
def lookupNode (f : RawFlow) (id : String) : Option Node :=
  ((resolveNodes f).find? (fun e => e.1 = id)).map (·.2)

-- ─── Condition evaluator ─────────────────────────────────────────────────────

/-- A thrown `FlowValidationError`, one constructor per throw site, carrying
the data the source interpolates into the message. -/
inductive VErr : Type
  | invalidConditionExpr (condition : String)
  | unknownOperator (op : String)
  | noFlowId
  | noFlowVersion
  | noStartNode
  | nodesArrayFormat
  | nodesEmpty
  | startNodeMissing (startNode : String)
  | questionNoText (nodeId : String)
  | questionAnswersEmpty (nodeId : String)
  | questionAnswerNotString (nodeId answerKey : String)
  | questionAnswerDangling (nodeId answerKey target : String)
  | safetyNoText (nodeId : String)
  | safetyNoNext (nodeId : String)
  | safetyNextDangling (nodeId target : String)
  | measureNoText (nodeId : String)
  | measureMinNotLtMax (nodeId : String) (min max : ℚ)
  | measureBranchesEmpty (nodeId : String)
  | measureBranchNoCondition (nodeId : String) (i : ℕ)
  | measureBranchNoNext (nodeId : String) (i : ℕ)
  | measureBranchDangling (nodeId : String) (i : ℕ) (target : String)
  | measureBranchBadCondition (nodeId : String) (i : ℕ) (condition : String)
  | terminalNoResult (nodeId : String)
  | artifactMissingField (nodeId field : String)
  | artifactFieldNotString (nodeId field : String)
  | artifactOptionalNotArray (nodeId field : String)
  | artifactNotesNotString (nodeId : String)
  | unreachableNodes (ids : List String)
  | noTerminalNode
  deriving DecidableEq, Repr

/-- Characters accepted by the regex class `[<>!=]`. -/
def isOpChar (c : Char) : Bool :=
  c = '<' ∨ c = '>' ∨ c = '!' ∨ c = '='

/-- Characters accepted by the regex class `[\d.]`. -/
def isDigitDot (c : Char) : Bool :=
  c.isDigit ∨ c = '.'

/-- The regex match `^([<>!=]=?)\s*([\d.]+)$` applied to the trimmed condition
string: yields the operator text and the `parseFloat` of the numeral text
(`none` = `NaN`, e.g. condition `"< ."`), or `none` if the regex fails. -/
def parseCondition (condition : String) : Option (String × Option ℚ) :=
  match trimChars condition.data with
  | [] => none
  | c0 :: rest =>
    if isOpChar c0 then
      let (op, rest) :=
        match rest with
        | '=' :: r => (String.mk [c0, '='], r)
        | r => (String.mk [c0], r)
      let rest := rest.dropWhile Char.isWhitespace
      if rest ≠ [] ∧ rest.all isDigitDot then
        some (op, parseFloatDigitsDot rest)
      else none
    else none

/-- The `switch (operator)` of `evaluateCondition`; comparisons against a `NaN`
threshold are all false except `!=`, which is true, matching JS semantics. -/
def applyOperator (op : String) (value : ℚ) (threshold : Option ℚ) : Except VErr Bool :=
  if op = "<" then .ok (match threshold with | some t => value < t | none => false)
  else if op = "<=" then .ok (match threshold with | some t => value ≤ t | none => false)
  else if op = ">" then .ok (match threshold with | some t => value > t | none => false)
  else if op = ">=" then .ok (match threshold with | some t => value ≥ t | none => false)
  else if op = "==" then .ok (match threshold with | some t => value = t | none => false)
  else if op = "!=" then .ok (match threshold with | some t => value ≠ t | none => true)
  else .error (.unknownOperator op)

/-- `evaluateCondition(condition, value)`: parse the condition against the
regex (throwing `Invalid condition expression` on failure), then dispatch on
the operator. -/
def evaluateCondition (condition : String) (value : ℚ) : Except VErr Bool :=
  match parseCondition condition with
  | none => .error (.invalidConditionExpr condition)
  | some (op, threshold) => applyOperator op value threshold

/-- `resolveMeasureBranch(branches, value)`: evaluates branches in order and
returns the first matching node id, `none` if no branch matches; a condition
evaluation error propagates. -/
def resolveMeasureBranch (branches : List MeasureBranch) (value : ℚ) :
    Except VErr (Option String) :=
  match branches with
  | [] => .ok none
  | b :: rest =>
    match evaluateCondition b.condition value with
    | .error e => .error e
    | .ok true => .ok (some b.next)
    | .ok false => resolveMeasureBranch rest value

-- ─── Validator ───────────────────────────────────────────────────────────────

/-- Sequential per-element validation, failing fast on the first error
(`for … of` loops whose body can only throw). -/
def exceptForEach (f : α → Except ε Unit) : List α → Except ε Unit
  | [] => .ok ()
  | a :: rest =>
    match f a with
    | .error e => .error e
    | .ok () => exceptForEach f rest

/-- `FlowValidator.validateTopLevel`: non-empty `flowId` / `flowVersion` /
`startNode` strings, dictionary-encoded (array format rejected), non-empty
`nodes`, and `startNode` present in `nodes` — in source order. -/
def validateTopLevel (raw : RawFlow) : Except VErr Unit :=
  if raw.flowId = "" then .error .noFlowId
  else if raw.flowVersion = "" then .error .noFlowVersion
  else if raw.startNode = "" then .error .noStartNode
  else
    match raw.nodes with
    | .arr _ => .error .nodesArrayFormat
    | .dict entries =>
      if entries.isEmpty then .error .nodesEmpty
      else if (entries.find? (fun e => e.1 = raw.startNode)).isNone then
        .error (.startNodeMissing raw.startNode)
      else .ok ()

/-- `FlowValidator.validateQuestionNode`. -/
def validateQuestionNode (nodeId : String) (text : String)
    (answers : List (String × String)) (allNodeIds : List String) : Except VErr Unit :=
  if text = "" then .error (.questionNoText nodeId)
  else if answers.isEmpty then .error (.questionAnswersEmpty nodeId)
  else
    exceptForEach (fun (entry : String × String) =>
      if entry.2 = "" then .error (.questionAnswerNotString nodeId entry.1)
      else if ¬ entry.2 ∈ allNodeIds then
        .error (.questionAnswerDangling nodeId entry.1 entry.2)
      else .ok ()) answers

/-- `FlowValidator.validateSafetyNode`. -/
def validateSafetyNode (nodeId : String) (text : String) (next : String)
    (allNodeIds : List String) : Except VErr Unit :=
  if text = "" then .error (.safetyNoText nodeId)
  else if next = "" then .error (.safetyNoNext nodeId)
  else if ¬ next ∈ allNodeIds then .error (.safetyNextDangling nodeId next)
  else .ok ()

/-- The indexed branch loop of `FlowValidator.validateMeasureNode`, including
the parse probe `evaluateCondition(branch.condition, 0)` guarded by
`try`/`catch`. -/
def validateMeasureBranches (nodeId : String) (allNodeIds : List String)
    (i : ℕ) : List MeasureBranch → Except VErr Unit
  | [] => .ok ()
  | b :: rest =>
    if b.condition = "" then .error (.measureBranchNoCondition nodeId i)
    else if b.next = "" then .error (.measureBranchNoNext nodeId i)
    else if ¬ b.next ∈ allNodeIds then .error (.measureBranchDangling nodeId i b.next)
    else
      match evaluateCondition b.condition 0 with
      | .error _ => .error (.measureBranchBadCondition nodeId i b.condition)
      | .ok _ => validateMeasureBranches nodeId allNodeIds (i + 1) rest

/-- `FlowValidator.validateMeasureNode`. -/
def validateMeasureNode (nodeId : String) (text : String) (validRange : ValidRange)
    (branches : List MeasureBranch) (allNodeIds : List String) : Except VErr Unit :=
  if text = "" then .error (.measureNoText nodeId)
  else if validRange.min ≥ validRange.max then
    .error (.measureMinNotLtMax nodeId validRange.min validRange.max)
  else if branches.isEmpty then .error (.measureBranchesEmpty nodeId)
  else validateMeasureBranches nodeId allNodeIds 0 branches

/-- The six universal artifact fields, in source order. -/
def universalRequiredFields : List String :=
  ["flow_id", "flow_version", "issue", "stop_reason", "last_confirmed_state", "safety_notes"]

/-- `FlowValidator.validateArtifact`: the six universal fields must be present,
non-null and string-typed; `stabilization_actions` / `recommendations` must be
arrays (of strings) when present; `notes` must be a string when present. -/
def validateArtifact (nodeId : String) (artifact : Artifact) : Except VErr Unit :=
  match exceptForEach (fun field =>
      match artifact.get field with
      | none => .error (.artifactMissingField nodeId field)
      | some (.str _) => .ok ()
      | some _ => .error (.artifactFieldNotString nodeId field)) universalRequiredFields with
  | .error e => .error e
  | .ok () =>
    match artifact.get "stabilization_actions" with
    | some (.arr _) | none =>
      match artifact.get "recommendations" with
      | some (.arr _) | none =>
        match artifact.get "notes" with
        | some (.str _) | none => .ok ()
        | some _ => .error (.artifactNotesNotString nodeId)
      | some _ => .error (.artifactOptionalNotArray nodeId "recommendations")
    | some _ => .error (.artifactOptionalNotArray nodeId "stabilization_actions")

/-- `FlowValidator.validateTerminalNode`. -/
def validateTerminalNode (nodeId : String) (result : String) (artifact : Artifact) :
    Except VErr Unit :=
  if result = "" then .error (.terminalNoResult nodeId)
  else validateArtifact nodeId artifact

/-- `FlowValidator.validateNode`: dispatch on the node's `type` tag (the
missing/unknown-type checks are discharged by the closed node union). -/
def validateNode (nodeId : String) (node : Node) (allNodeIds : List String) :
    Except VErr Unit :=
  match node with
  | .question text answers => validateQuestionNode nodeId text answers allNodeIds
  | .safety text next => validateSafetyNode nodeId text next allNodeIds
  | .measure text _ validRange branches =>
    validateMeasureNode nodeId text validRange branches allNodeIds
  | .terminal result artifact => validateTerminalNode nodeId result artifact

/-- `FlowValidator.validateNodes`: validate every node against the full key set. -/
def validateNodes (entries : List (String × Node)) : Except VErr Unit :=
  let allNodeIds := entries.map (·.1)
  exceptForEach (fun e => validateNode e.1 e.2 allNodeIds) entries

/-- Outgoing edges followed by the reachability traversal. -/
def Node.successors : Node → List String
  | .question _ answers => answers.map (·.2)
  | .safety _ next => [next]
  | .measure _ _ _ branches => branches.map (·.next)
  | .terminal .. => []

/-- The BFS loop of `validateReachability`: dequeue, skip if visited, mark
visited, enqueue the node's successors (ids with no node are marked and
skipped).  `fuel` bounds the number of iterations; `reachabilityFuel` below is
an upper bound on the total number of enqueues, so the loop always drains the
queue before fuel runs out. -/
def bfsReach (entries : List (String × Node)) : ℕ → List String → List String → List String
  | _, visited, [] => visited
  | 0, visited, _ => visited
  | fuel + 1, visited, id :: queue =>
    if id ∈ visited then bfsReach entries fuel visited queue
    else
      match ((entries.find? (fun e => e.1 = id)).map (·.2)) with
      | none => bfsReach entries fuel (visited ++ [id]) queue
      | some node => bfsReach entries fuel (visited ++ [id]) (queue ++ node.successors)

/-- One more than the largest possible number of BFS dequeues: the initial
enqueue plus every node's successor list, each pushed at most once. -/
def reachabilityFuel (entries : List (String × Node)) : ℕ :=
  2 + entries.length + (entries.map (fun e => e.2.successors.length)).sum

/-- `FlowValidator.validateReachability`: every declared node id must be
reached by the BFS from `startNode`. -/
def validateReachability (startNode : String) (entries : List (String × Node)) :
    Except VErr Unit :=
  let visited := bfsReach entries (reachabilityFuel entries) [] [startNode]
  let unreachable := (entries.map (·.1)).filter (fun id => ¬ id ∈ visited)
  if unreachable = [] then .ok () else .error (.unreachableNodes unreachable)

/-- `FlowValidator.validateHasTerminal`. -/
def validateHasTerminal (entries : List (String × Node)) : Except VErr Unit :=
  if entries.any (fun e => e.2.typeTag = "TERMINAL") then .ok ()
  else .error .noTerminalNode

/-- `FlowValidator.validate`: top-level shape, per-node checks, reachability,
and existence of a terminal node — in that order, failing fast. -/
def FlowValidator.validate (raw : RawFlow) : Except VErr Unit := do
  validateTopLevel raw
  validateNodes raw.entries
  validateReachability raw.startNode raw.entries
  validateHasTerminal raw.entries

-- ─── Session data model (types.ts) ───────────────────────────────────────────

/-- A `SessionEvent`: one append-only log entry. -/
structure SessionEvent : Type where
  node_id : String
  type : String
  value : Value
  timestamp : String
  deriving DecidableEq, Repr

/-- A `SessionState`.  The source field `partial_artifact` is called
`stoppedArtifact` here. -/
structure SessionState : Type where
  flow_id : String
  flow_version : String
  session_id : String
  started_at : String
  current_node_id : String
  events : List SessionEvent
  completed : Bool
  stopped : Bool
  completed_at : Option String := none
  terminal_node_id : Option String := none
  result : Option String := none
  artifact : Option Artifact := none
  stopped_at : Option String := none
  stop_node_id : Option String := none
  stoppedArtifact : Option Artifact := none
  deriving DecidableEq, Repr

/-- A `SessionSummary`. -/
structure SessionSummary : Type where
  flow_id : String
  flow_version : String
  session_id : String
  started_at : String
  completed_at : String
  events : List SessionEvent
  terminal_node_id : String
  result : String
  artifact : Option Artifact
  stopped : Bool
  deriving DecidableEq, Repr

/-- One call to the persistence collaborator, in the order the engine makes
them. -/
inductive StorageWrite : Type
  | saveState (s : SessionState)
  | saveSummary (y : SessionSummary)
  deriving DecidableEq, Repr

/-- A thrown `FlowEngineError`, one constructor per throw site, carrying the
data the source interpolates into the message. -/
inductive EngineError : Type
  | nodeNotFound (id : String)
  | invalidAnswer (answerKey : String) (validKeys : List String)
  | measureNotNumeric
  | valueOutOfRange (v min max : ℚ)
  | questionNoAnswer (nodeId answerKey : String) (validKeys : List String)
  | measureNotNumericAt (nodeId : String)
  | noBranchMatched (nodeId : String) (v : ℚ) (conditions : List String)
  | incompleteSummary
  | processFailed (e : VErr)
  deriving DecidableEq, Repr

-- ─── Engine ──────────────────────────────────────────────────────────────────

/-- `FlowEngine.getCurrentNode`: dereference `current_node_id`, erroring when
absent. -/
def getCurrentNode (f : RawFlow) (s : SessionState) : Except EngineError Node :=
  match lookupNode f s.current_node_id with
  | none => .error (.nodeNotFound s.current_node_id)
  | some node => .ok node

/-- `FlowEngine.validateResponse`: QUESTION requires an answer key bound (to a
non-empty id — the source's falsy check) in `answers`; MEASURE requires a
numeric value inside `validRange`; SAFETY and TERMINAL accept any value. -/
def validateResponse (node : Node) (value : Value) : Except EngineError Unit :=
  match node with
  | .question _ answers =>
    let answerKey := valueToString value
    match (answers.find? (fun e => e.1 = answerKey)).map (·.2) with
    | none => .error (.invalidAnswer answerKey (answers.map (·.1)))
    | some next =>
      if next = "" then .error (.invalidAnswer answerKey (answers.map (·.1)))
      else .ok ()
  | .measure _ _ validRange _ =>
    match toNumber value with
    | none => .error .measureNotNumeric
    | some numValue =>
      if numValue < validRange.min ∨ numValue > validRange.max then
        .error (.valueOutOfRange numValue validRange.min validRange.max)
      else .ok ()
  | _ => .ok ()

/-- `FlowEngine.startSession`: fresh state at `startNode` with an empty event
log, persisted before returning.  `sid` and `ts` stand for the generated
session id and the current instant. -/
def startSession (f : RawFlow) (sid ts : String) : List StorageWrite × SessionState :=
  let s : SessionState :=
    { flow_id := f.flowId
      flow_version := f.flowVersion
      session_id := sid
      started_at := ts
      current_node_id := f.startNode
      events := []
      completed := false
      stopped := false }
  ([.saveState s], s)

/-- `FlowEngine.generateSummary`: only for completed states; persists the
summary.  (The source reads `completed_at` / `terminal_node_id` / `result`
through non-null assertions; they are always set together with `completed`.) -/
def generateSummary (s : SessionState) : List StorageWrite × Except EngineError SessionSummary :=
  if s.completed = false then ([], .error .incompleteSummary)
  else
    let y : SessionSummary :=
      { flow_id := s.flow_id
        flow_version := s.flow_version
        session_id := s.session_id
        started_at := s.started_at
        completed_at := s.completed_at.getD ""
        events := s.events
        terminal_node_id := s.terminal_node_id.getD ""
        result := s.result.getD ""
        artifact := s.artifact
        stopped := false }
    ([.saveSummary y], .ok y)

/-- The implicit acknowledgement event appended when a TERMINAL node is
auto-processed without an incoming event. -/
def terminalEventOf (s : SessionState) (ts : String) : SessionEvent :=
  { node_id := s.current_node_id, type := "TERMINAL", value := .vbool true, timestamp := ts }

/-- `FlowEngine.processTerminalNode`: append the terminal event (the incoming
event when the terminal was the current node, otherwise an implicit
acknowledgement event), mark the state completed (and explicitly not stopped),
persist it and record the summary. -/
def processTerminalNode (s : SessionState) (result : String) (artifact : Artifact)
    (incomingEvent : Option SessionEvent) (ts : String) :
    List StorageWrite × Except EngineError SessionState :=
  let event := incomingEvent.getD (terminalEventOf s ts)
  let completedState : SessionState :=
    { s with
      events := s.events ++ [event]
      completed := true
      stopped := false
      completed_at := some ts
      terminal_node_id := some s.current_node_id
      result := some result
      artifact := some artifact }
  let step := generateSummary completedState
  (.saveState completedState :: step.1, step.2.map (fun _ => completedState))

/-- The shared tail of `processResponse`'s non-terminal cases: build the
advanced state, persist it, and auto-process the next node when it is a
TERMINAL. -/
def advanceState (f : RawFlow) (s : SessionState) (event : SessionEvent)
    (nextNodeId : String) (ts : String) :
    List StorageWrite × Except EngineError SessionState :=
  let updatedState : SessionState :=
    { s with current_node_id := nextNodeId, events := s.events ++ [event] }
  match lookupNode f nextNodeId with
  | some (.terminal result artifact) =>
    let step := processTerminalNode updatedState result artifact none ts
    (.saveState updatedState :: step.1, step.2)
  | _ => ([.saveState updatedState], .ok updatedState)

/-- The event recorded for the current node when processing a response. -/
def responseEventOf (s : SessionState) (node : Node) (v : Value) (ts : String) : SessionEvent :=
  { node_id := s.current_node_id, type := node.typeTag, value := v, timestamp := ts }

/-- `FlowEngine.processResponse`: validate the response for the current node,
record its event, resolve the next node per node type, persist the advanced
state, and auto-complete when a TERMINAL is the current or next node.  Every
error leaves the call without any storage write. -/
def processResponse (f : RawFlow) (s : SessionState) (value : Value) (ts : String) :
    List StorageWrite × Except EngineError SessionState :=
  match getCurrentNode f s with
  | .error e => ([], .error e)
  | .ok node =>
    match validateResponse node value with
    | .error e => ([], .error e)
    | .ok () =>
      let event : SessionEvent := responseEventOf s node value ts
      match node with
      | .terminal result artifact => processTerminalNode s result artifact (some event) ts
      | .question _ answers =>
        let answerKey := valueToString value
        match (answers.find? (fun e => e.1 = answerKey)).map (·.2) with
        | none => ([], .error (.questionNoAnswer s.current_node_id answerKey (answers.map (·.1))))
        | some next =>
          if next = "" then
            ([], .error (.questionNoAnswer s.current_node_id answerKey (answers.map (·.1))))
          else advanceState f s event next ts
      | .safety _ next => advanceState f s event next ts
      | .measure _ _ _ branches =>
        match toNumber value with
        | none => ([], .error (.measureNotNumericAt s.current_node_id))
        | some numValue =>
          match resolveMeasureBranch branches numValue with
          | .error ve => ([], .error (.processFailed ve))
          | .ok none =>
            ([], .error (.noBranchMatched s.current_node_id numValue (branches.map (·.condition))))
          | .ok (some next) => advanceState f s event next ts

-- ─── STOP path (artifact synthesizer) ────────────────────────────────────────

/-- The artifact of the first TERMINAL node in declaration order, if any
(`FlowEngine.getTemplateArtifact`'s loop). -/
def firstTerminalArtifact : List (String × Node) → Option Artifact
  | [] => none
  | (_, .terminal _ artifact) :: _ => some artifact
  | _ :: rest => firstTerminalArtifact rest

/-- `FlowEngine.getTemplateArtifact`: the first terminal node's artifact, with
a defensive fallback (the validator guarantees a terminal exists). -/
def getTemplateArtifact (f : RawFlow) : Artifact :=
  match firstTerminalArtifact (resolveNodes f) with
  | some artifact => artifact
  | none =>
    [("flow_id", .str f.flowId),
     ("flow_version", .str f.flowVersion),
     ("issue", .str (f.title.getD "")),
     ("stop_reason", .str ""),
     ("last_confirmed_state", .str ""),
     ("safety_notes", .str "")]

/-- The last recorded value for a node id (`eventMap` built with `Map.set`, so
the last event for an id wins). -/
def lastEventValue (events : List SessionEvent) (id : String) : Option Value :=
  ((events.filter (fun e => e.node_id = id)).getLast?).map (·.value)

/-- JS `artifact[key] = v`: overwrite the binding if present, append it
otherwise. -/
def Artifact.set (a : Artifact) (key : String) (v : AValue) : Artifact :=
  if (a.find? (fun e => e.1 = key)).isSome then
    a.map (fun e => if e.1 = key then (key, v) else e)
  else a ++ [(key, v)]

/-- The `{` character, written via its code point. -/
def openBraceChar : Char := '\x7b'

/-- The `}` character, written via its code point. -/
def closeBraceChar : Char := '\x7d'

/-- JS `s.includes('\x7b\x7b')`. -/
def containsOpenBraces : List Char → Bool
  | [] => false
  | c :: rest => (c = openBraceChar ∧ rest.head? = some openBraceChar) ∨ containsOpenBraces rest

/-- One `\x7b\x7b([^\x7d]+)\x7d\x7d` replacement callback: trim the captured
expression, take the part before the first `.` as the node id, and substitute
the stringified recorded value, or `"Unknown"` when the node was never
answered. -/
def resolveTemplateExpr (lookup : String → Option Value) (inner : List Char) : List Char :=
  let nodeId := ((trimChars inner).takeWhile (fun c => ¬ c = '.')).asString
  match lookup nodeId with
  | some v => (valueToString v).data
  | none => "Unknown".data

/-- The global-regex scan of `templateValue.replace(/\x7b\x7b([^\x7d]+)\x7d\x7d/g, …)`:
at each `\x7b\x7b`, a non-empty run of non-`\x7d` characters followed by
`\x7d\x7d` is a match and is replaced; otherwise scanning advances one
character. -/
def replaceVarsAux (lookup : String → Option Value) : ℕ → List Char → List Char
  | 0, l => l
  | _ + 1, [] => []
  | fuel + 1, c :: rest =>
    if c = openBraceChar ∧ rest.head? = some openBraceChar then
      let rest2 := rest.tail
      let inner := rest2.takeWhile (fun ch => ¬ ch = closeBraceChar)
      let after := rest2.drop inner.length
      if ¬ inner.isEmpty ∧ after.take 2 = [closeBraceChar, closeBraceChar] then
        resolveTemplateExpr lookup inner ++ replaceVarsAux lookup fuel (after.drop 2)
      else
        c :: replaceVarsAux lookup fuel rest
    else
      c :: replaceVarsAux lookup fuel rest

/-- Template-variable resolution over a string template value.  The scan
consumes at least one character per step, so fuelling it with the string
length is exact. -/
def replaceTemplateVars (lookup : String → Option Value) (s : String) : String :=
  String.mk (replaceVarsAux lookup s.data.length s.data)

/-- The four fields `buildStopArtifact` treats as universal when defaulting
collected fields (the source's `universalFields` set — `stop_reason` and
`last_confirmed_state` are not in it; they are overwritten afterwards). -/
def stopUniversalFields : List String :=
  ["flow_id", "flow_version", "issue", "safety_notes"]

/-- One iteration of `buildStopArtifact`'s defaulting loop: non-universal
fields become `"Unknown"`, or `[]` when the template value is an array. -/
def defaultStopField (e : String × AValue) : String × AValue :=
  if e.1 ∈ stopUniversalFields then e
  else (e.1, match e.2 with | .arr _ => .arr [] | _ => .str "Unknown")

/-- One iteration of `buildStopArtifact`'s template-variable resolution loop:
a string template value containing `\x7b\x7b` overwrites the field with its
resolved text. -/
def resolveStep (lookup : String → Option Value) (acc : Artifact) (e : String × AValue) :
    Artifact :=
  match e.2 with
  | .str tv =>
    if containsOpenBraces tv.data then acc.set e.1 (.str (replaceTemplateVars lookup tv))
    else acc
  | _ => acc

/-- `FlowEngine.buildLastConfirmedState`. -/
def buildLastConfirmedState (s : SessionState) : String :=
  match s.events.getLast? with
  | none => "Stopped at: " ++ s.current_node_id ++ ". No responses recorded."
  | some last =>
    "Last answered: " ++ last.node_id ++ " = " ++ valueToString last.value ++
      ". Stopped at: " ++ s.current_node_id ++ "."

/-- `FlowEngine.buildStopArtifact`: start from the template, default every
non-universal field to `"Unknown"` (or `[]` for array-valued template fields),
set the STOP-specific universal fields, then resolve `\x7b\x7bnodeId.value\x7d\x7d`
references in string template values against the event map. -/
def buildStopArtifact (f : RawFlow) (s : SessionState) : Artifact :=
  let template := getTemplateArtifact f
  let lookup := lastEventValue s.events
  let defaulted : Artifact := template.map defaultStopField
  let withStop :=
    ((defaulted.set "stop_reason"
        (.str ("User stopped diagnostic at node: " ++ s.current_node_id))).set
      "last_confirmed_state" (.str (buildLastConfirmedState s))).set
      "safety_notes" (.str "")
  template.foldl (resolveStep lookup) withStop

/-- `FlowEngine.generateStopSummary`. -/
def generateStopSummary (s : SessionState) (stopArtifact : Artifact) : SessionSummary :=
  { flow_id := s.flow_id
    flow_version := s.flow_version
    session_id := s.session_id
    started_at := s.started_at
    completed_at := s.stopped_at.getD ""
    events := s.events
    terminal_node_id := s.stop_node_id.getD s.current_node_id
    result := "Diagnostic stopped at: " ++ s.current_node_id
    artifact := some stopArtifact
    stopped := true }

/-- `FlowEngine.stopSession`: synthesize the partial artifact, mark the state
stopped, persist it and record the stop summary. -/
def stopSession (f : RawFlow) (s : SessionState) (ts : String) :
    List StorageWrite × SessionState :=
  let stopArtifact := buildStopArtifact f s
  let stoppedState : SessionState :=
    { s with
      stopped := true
      stopped_at := some ts
      stop_node_id := some s.current_node_id
      stoppedArtifact := some stopArtifact }
  ([.saveState stoppedState, .saveSummary (generateStopSummary stoppedState stopArtifact)],
    stoppedState)

-- ─── Run harness, summary normalization, storage model ───────────────────────

/-- The fold of one run: feed each response to `processResponse`; an error
leaves the state untouched (the caller re-prompts) and a success advances.
`clock` supplies the wall-clock instant of the `i`-th engine call. -/
def runSteps (f : RawFlow) (clock : ℕ → String) : ℕ → SessionState → List Value →
    SessionState × List StorageWrite
  | _, s, [] => (s, [])
  | i, s, v :: rest =>
    let step := processResponse f s v (clock i)
    match step.2 with
    | .ok s' =>
      let tail := runSteps f clock (i + 1) s' rest
      (tail.1, step.1 ++ tail.2)
    | .error _ =>
      let tail := runSteps f clock (i + 1) s rest
      (tail.1, step.1 ++ tail.2)

/-- One independent run: `startSession` followed by one `processResponse` per
input value.  `sid` is the generated session identifier and `clock i` the
instant of the `i`-th call. -/
def runSession (f : RawFlow) (sid : String) (clock : ℕ → String) (inputs : List Value) :
    SessionState × List StorageWrite :=
  let start := startSession f sid (clock 0)
  let rest := runSteps f clock 1 start.2 inputs
  (rest.1, start.1 ++ rest.2)

/-- The session summaries recorded during a run, in recording order. -/
def summariesOf (ws : List StorageWrite) : List SessionSummary :=
  ws.filterMap (fun w => match w with | .saveSummary y => some y | _ => none)

/-- Removes the timestamp field of an event. -/
def scrubEvent (e : SessionEvent) : SessionEvent :=
  { e with timestamp := "" }

/-- Removes the session identifier and every timestamp field of a summary
(`session_id`, `started_at`, `completed_at`, `events[].timestamp`). -/
def scrubSummary (y : SessionSummary) : SessionSummary :=
  { y with
    session_id := ""
    started_at := ""
    completed_at := ""
    events := y.events.map scrubEvent }

/-- Removes the session identifier and every timestamp field of a session
state. -/
def scrubState (s : SessionState) : SessionState :=
  { s with
    session_id := ""
    started_at := ""
    completed_at := s.completed_at.map (fun _ => "")
    stopped_at := s.stopped_at.map (fun _ => "")
    events := s.events.map scrubEvent }

/-- Normalizes a storage write. -/
def scrubWrite (w : StorageWrite) : StorageWrite :=
  match w with
  | .saveState s => .saveState (scrubState s)
  | .saveSummary y => .saveSummary (scrubSummary y)

/-- The persistence collaborator's state: the single current-session slot and
the append-only, session-id-deduplicated history collection. -/
structure Storage : Type where
  sessionState : Option SessionState := none
  history : List SessionSummary := []
  deriving DecidableEq, Repr

/-- Applies one persistence call to the store (`saveSessionState` overwrites
the slot; `saveSessionSummary` appends, deduplicated by session id). -/
def applyWrite (st : Storage) : StorageWrite → Storage
  | .saveState s => { st with sessionState := some s }
  | .saveSummary y =>
    if st.history.any (fun z => z.session_id = y.session_id) then st
    else { st with history := st.history ++ [y] }

/-- Applies an ordered list of persistence calls. -/
def applyWrites (st : Storage) (ws : List StorageWrite) : Storage :=
  ws.foldl applyWrite st

-- ─── Spec-side definitions and auxiliary relations ───────────────────────────

/-- Whether a branch condition evaluates to true for a value (false when the
condition does not parse). -/
def condHolds (c : String) (v : ℚ) : Bool :=
  match evaluateCondition c v with
  | .ok b => b
  | .error _ => false

/-- Spec-side branch resolution, following the spec's words: evaluate the
branch list in declaration order and select the next node of the first branch
whose condition evaluates to true.  Compared against `resolveMeasureBranch`. -/
def specFirstMatchingBranch (branches : List MeasureBranch) (v : ℚ) : Option String :=
  (branches.find? (fun b => condHolds b.condition v)).map (·.next)

/-- Relates the outcomes of two runs of the same transition: identical errors,
or states identical after normalization. -/
def resultRel : Except EngineError SessionState → Except EngineError SessionState → Prop
  | .ok a, .ok b => scrubState a = scrubState b
  | .error e, .error e' => e = e'
  | _, _ => False

/-- The session states reachable through the engine's public lifecycle:
`startSession`, successful `processResponse` transitions, and `stopSession`
applied to non-completed states. -/
inductive ReachableState (f : RawFlow) : SessionState → Prop
  | start (sid ts : String) : ReachableState f (startSession f sid ts).2
  | step {s s' : SessionState} {v : Value} {ts : String} {ws : List StorageWrite}
      (hs : ReachableState f s) (h : processResponse f s v ts = (ws, .ok s')) :
      ReachableState f s'
  | stop {s : SessionState} (ts : String) (hs : ReachableState f s)
      (hnc : s.completed = false) : ReachableState f (stopSession f s ts).2

-- ─── Concrete fixtures ───────────────────────────────────────────────────────

/-- The artifact template of terminal `t1` of the spec's concrete scenario,
extended with a flow-specific template-variable field and an optional list
field (both exercised by the STOP path). -/
def t1Artifact : Artifact :=
  [("flow_id", .str "f1"), ("flow_version", .str "1.0"), ("issue", .str "Low voltage"),
   ("stop_reason", .str ""), ("last_confirmed_state", .str ""), ("safety_notes", .str ""),
   ("volt", .str "\x7b\x7bm1.value\x7d\x7d V"), ("recommendations", .arr ["replace"])]

/-- The artifact template of terminal `t2` of the spec's concrete scenario. -/
def t2Artifact : Artifact :=
  [("flow_id", .str "f1"), ("flow_version", .str "1.0"), ("issue", .str "OK voltage"),
   ("stop_reason", .str ""), ("last_confirmed_state", .str ""), ("safety_notes", .str "")]

/-- The spec's concrete scenario flow: `q1` Question (yes → s1, no → t1),
`s1` Safety (next m1), `m1` Measure (validRange 10–15, branches
`"< 11.8" → t1`, `">= 11.8" → t2`), terminals `t1` / `t2`. -/
def scenarioFlow : RawFlow :=
  { flowId := "f1", flowVersion := "1.0", startNode := "q1",
    nodes := .dict
      [("q1", .question "Power?" [("yes", "s1"), ("no", "t1")]),
       ("s1", .safety "Careful" "m1"),
       ("m1", .measure "Voltage" none ⟨10, 15⟩ [⟨"< 11.8", "t1"⟩, ⟨">= 11.8", "t2"⟩]),
       ("t1", .terminal "Bad" t1Artifact),
       ("t2", .terminal "Good" t2Artifact)] }

/-- The same scenario flow with its nodes in the tagged-array encoding. -/
def scenarioFlowArray : RawFlow :=
  { scenarioFlow with
    nodes := .arr
      [("q1", .question "Power?" [("yes", "s1"), ("no", "t1")]),
       ("s1", .safety "Careful" "m1"),
       ("m1", .measure "Voltage" none ⟨10, 15⟩ [⟨"< 11.8", "t1"⟩, ⟨">= 11.8", "t2"⟩]),
       ("t1", .terminal "Bad" t1Artifact),
       ("t2", .terminal "Good" t2Artifact)] }

/-- A valid flow whose measure node has deliberately non-exhaustive branches:
an in-range value of 12 matches no branch. -/
def gapFlow : RawFlow :=
  { flowId := "f2", flowVersion := "1.0", startNode := "m1",
    nodes := .dict
      [("m1", .measure "Voltage" none ⟨10, 15⟩ [⟨"< 11", "t1"⟩]),
       ("t1", .terminal "Low" t2Artifact)] }

-- ─── Normalization congruence lemmas ─────────────────────────────────────────

/-- Two states equal after normalization agree on every field the engine's
control flow reads. -/
theorem scrubState_fields {s s' : SessionState} (h : scrubState s = scrubState s') :
    s.flow_id = s'.flow_id ∧ s.flow_version = s'.flow_version ∧
    s.current_node_id = s'.current_node_id ∧
    s.events.map scrubEvent = s'.events.map scrubEvent ∧
    s.completed = s'.completed ∧ s.stopped = s'.stopped ∧
    s.terminal_node_id = s'.terminal_node_id ∧ s.result = s'.result ∧
    s.artifact = s'.artifact ∧ s.stop_node_id = s'.stop_node_id ∧
    s.stoppedArtifact = s'.stoppedArtifact ∧
    s.completed_at.map (fun _ => "") = s'.completed_at.map (fun _ => "") ∧
    s.stopped_at.map (fun _ => "") = s'.stopped_at.map (fun _ => "") := by
  cases s
  cases s'
  simp only [scrubState, SessionState.mk.injEq] at h
  simp_all

/-- Terminal processing sends normalization-equal inputs to normalization-equal
writes and outcomes, whatever the wall-clock values. -/
theorem processTerminalNode_congr {s s' : SessionState} {ts ts' : String}
    {r : String} {a : Artifact} {ie ie' : Option SessionEvent}
    (h : scrubState s = scrubState s')
    (hie : ie.map scrubEvent = ie'.map scrubEvent) :
    (processTerminalNode s r a ie ts).1.map scrubWrite =
      (processTerminalNode s' r a ie' ts').1.map scrubWrite ∧
    resultRel (processTerminalNode s r a ie ts).2 (processTerminalNode s' r a ie' ts').2 := by
  obtain ⟨h1, h2, h3, h4, h5, h6, h7, h8, h9, h10, h11, h12, h13⟩ := scrubState_fields h
  have hev : scrubEvent (ie.getD (terminalEventOf s ts)) =
      scrubEvent (ie'.getD (terminalEventOf s' ts')) := by
    cases ie <;> cases ie' <;> simp_all [scrubEvent, terminalEventOf]
  constructor
  · simp only [processTerminalNode, generateSummary, List.map_cons, List.map_nil,
      scrubWrite, scrubSummary, scrubState, SessionState.mk.injEq, SessionSummary.mk.injEq,
      List.map_append, StorageWrite.saveState.injEq, StorageWrite.saveSummary.injEq,
      List.cons.injEq]
    simp_all [scrubWrite, scrubSummary, SessionSummary.mk.injEq]
  · simp only [processTerminalNode, generateSummary, resultRel, Except.map, scrubState,
      SessionState.mk.injEq, List.map_append, List.map_cons, List.map_nil]
    simp_all

/-- State advancement sends normalization-equal inputs to normalization-equal
writes and outcomes. -/
theorem advanceState_congr {f : RawFlow} {s s' : SessionState} {ev ev' : SessionEvent}
    {next ts ts' : String}
    (h : scrubState s = scrubState s') (hev : scrubEvent ev = scrubEvent ev') :
    (advanceState f s ev next ts).1.map scrubWrite =
      (advanceState f s' ev' next ts').1.map scrubWrite ∧
    resultRel (advanceState f s ev next ts).2 (advanceState f s' ev' next ts').2 := by
  obtain ⟨h1, h2, h3, h4, h5, h6, h7, h8, h9, h10, h11, h12, h13⟩ := scrubState_fields h
  have hupd : scrubState { s with current_node_id := next, events := s.events ++ [ev] } =
      scrubState { s' with current_node_id := next, events := s'.events ++ [ev'] } := by
    simp only [scrubState, SessionState.mk.injEq, List.map_append, List.map_cons, List.map_nil]
    simp_all
  simp only [advanceState]
  cases hl : lookupNode f next with
  | none =>
    refine ⟨?_, ?_⟩
    · simp [scrubWrite, hupd]
    · simp [resultRel, hupd]
  | some node =>
    cases node with
    | terminal r a =>
      have := @processTerminalNode_congr _ _ ts ts' r a none none hupd rfl
      refine ⟨?_, ?_⟩
      · simp [scrubWrite, hupd, this.1]
      · exact this.2
    | question t ans => exact ⟨by simp [scrubWrite, hupd], by simp [resultRel, hupd]⟩
    | safety t nx => exact ⟨by simp [scrubWrite, hupd], by simp [resultRel, hupd]⟩
    | measure t u r br => exact ⟨by simp [scrubWrite, hupd], by simp [resultRel, hupd]⟩

/-- The central transition sends normalization-equal inputs to
normalization-equal writes and outcomes (same error, or states equal after
normalization), whatever the wall-clock values. -/
theorem processResponse_congr {f : RawFlow} {s s' : SessionState} {v : Value} {ts ts' : String}
    (h : scrubState s = scrubState s') :
    (processResponse f s v ts).1.map scrubWrite =
      (processResponse f s' v ts').1.map scrubWrite ∧
    resultRel (processResponse f s v ts).2 (processResponse f s' v ts').2 := by
  obtain ⟨h1, h2, h3, h4, h5, h6, h7, h8, h9, h10, h11, h12, h13⟩ := scrubState_fields h
  simp only [processResponse, getCurrentNode, h3]
  cases hl : lookupNode f s'.current_node_id with
  | none => simp only [hl]; exact ⟨by simp, by simp [resultRel]⟩
  | some node =>
    simp only [hl]
    cases hv : validateResponse node v with
    | error e => simp only [hv]; exact ⟨by simp, by simp [resultRel]⟩
    | ok u =>
      simp only [hv]
      have hev : scrubEvent (responseEventOf s node v ts) =
          scrubEvent (responseEventOf s' node v ts') := by
        simp [scrubEvent, responseEventOf, h3]
      cases node with
      | terminal r a =>
        exact processTerminalNode_congr h (by simp [hev])
      | question t ans =>
        cases hfind : (ans.find? (fun e => e.1 = valueToString v)).map (·.2) with
        | none => simp only [hfind]; exact ⟨by simp, by simp [resultRel]⟩
        | some next =>
          simp only [hfind]
          by_cases hne : next = ""
          · subst hne
            simp only [if_true, reduceIte]
            exact ⟨by simp, by simp [resultRel]⟩
          · simp only [hne, if_false, reduceIte]
            exact advanceState_congr h hev
      | safety t nx =>
        exact advanceState_congr h hev
      | measure t u r br =>
        cases hn : toNumber v with
        | none => simp only [hn]; exact ⟨by simp, by simp [resultRel]⟩
        | some q =>
          simp only [hn]
          cases hr : resolveMeasureBranch br q with
          | error e => simp only [hr]; exact ⟨by simp, by simp [resultRel]⟩
          | ok o =>
            cases o with
            | none => simp only [hr]; exact ⟨by simp, by simp [resultRel]⟩
            | some next => simp only [hr]; exact advanceState_congr h hev

/-- Whole-run congruence: runs from normalization-equal states under different
clocks stay normalization-equal and emit normalization-equal writes. -/
theorem runSteps_congr {f : RawFlow} {clock clock' : ℕ → String} (inputs : List Value) :
    ∀ {i i' : ℕ} {s s' : SessionState}, scrubState s = scrubState s' →
    scrubState (runSteps f clock i s inputs).1 = scrubState (runSteps f clock' i' s' inputs).1 ∧
    (runSteps f clock i s inputs).2.map scrubWrite =
      (runSteps f clock' i' s' inputs).2.map scrubWrite := by
  induction inputs with
  | nil => intro i i' s s' h; exact ⟨h, rfl⟩
  | cons v rest ih =>
    intro i i' s s' h
    have pc := @processResponse_congr f _ _ v (clock i) (clock' i') h
    simp only [runSteps]
    cases hr : (processResponse f s v (clock i)).2 with
    | ok s1 =>
      cases hr' : (processResponse f s' v (clock' i')).2 with
      | ok s1' =>
        have hrel : scrubState s1 = scrubState s1' := by
          have := pc.2
          rw [hr, hr'] at this
          exact this
        have tail := @ih (i + 1) (i' + 1) _ _ hrel
        exact ⟨tail.1, by simp only [List.map_append, pc.1, tail.2]⟩
      | error e' =>
        exact absurd (by rw [hr, hr'] at pc; exact pc.2) (by simp [resultRel])
    | error e =>
      cases hr' : (processResponse f s' v (clock' i')).2 with
      | ok s1' =>
        exact absurd (by rw [hr, hr'] at pc; exact pc.2) (by simp [resultRel])
      | error e' =>
        have tail := @ih (i + 1) (i' + 1) _ _ h
        exact ⟨tail.1, by simp only [List.map_append, pc.1, tail.2]⟩

/-- Extracting summaries commutes with normalization. -/
theorem summariesOf_map_scrub (ws : List StorageWrite) :
    summariesOf (ws.map scrubWrite) = (summariesOf ws).map scrubSummary := by
  induction ws with
  | nil => rfl
  | cons w rest ih => cases w <;> simp_all [summariesOf, scrubWrite]

-- ─── C1 ──────────────────────────────────────────────────────────────────────

/-- C1: for every validated flow definition and every ordered sequence of
response values, two independent runs (`startSession` followed by the same
`processResponse` calls), with arbitrary generated session identifiers and
arbitrary wall clocks, record session summaries that are equal after removing
the session identifier and all timestamp fields (`started_at`, `completed_at`,
`events[].timestamp`). -/
theorem c1_determinism (f : RawFlow) (hval : FlowValidator.validate f = .ok ())
    (inputs : List Value) (sid1 sid2 : String) (clock1 clock2 : ℕ → String) :
    (summariesOf (runSession f sid1 clock1 inputs).2).map scrubSummary =
      (summariesOf (runSession f sid2 clock2 inputs).2).map scrubSummary := by
  clear hval
  have h0 : scrubState (startSession f sid1 (clock1 0)).2 =
      scrubState (startSession f sid2 (clock2 0)).2 := rfl
  have hrun := @runSteps_congr f clock1 clock2 inputs 1 1 _ _ h0
  have key : ∀ (ws ws' : List StorageWrite), ws.map scrubWrite = ws'.map scrubWrite →
      (summariesOf ws).map scrubSummary = (summariesOf ws').map scrubSummary := by
    intro ws ws' hw
    have := congrArg summariesOf hw
    rwa [summariesOf_map_scrub, summariesOf_map_scrub] at this
  have sapp : ∀ a b : List StorageWrite, summariesOf (a ++ b) = summariesOf a ++ summariesOf b :=
    fun a b => List.filterMap_append a b _
  simp only [runSession, sapp, List.map_append]
  rw [show summariesOf (startSession f sid1 (clock1 0)).1 = [] from rfl,
    show summariesOf (startSession f sid2 (clock2 0)).1 = [] from rfl]
  simpa using key _ _ hrun.2

/-- Witness for C1: the concrete scenario flow validates, and two runs with
different session ids and clocks produce identical normalized summaries. -/
theorem c1_determinism_witness :
    FlowValidator.validate scenarioFlow = .ok () ∧
    (summariesOf (runSession scenarioFlow "run-a" (fun _ => "ta") [.vstr "yes", .vbool true,
      .vnum (mkRat 115 10)]).2).map scrubSummary =
    (summariesOf (runSession scenarioFlow "run-b" (fun i => toString i) [.vstr "yes", .vbool true,
      .vnum (mkRat 115 10)]).2).map scrubSummary :=
  ⟨rfl, c1_determinism scenarioFlow rfl [.vstr "yes", .vbool true, .vnum (mkRat 115 10)]
    "run-a" "run-b" (fun _ => "ta") (fun i => toString i)⟩

-- ─── C3 ──────────────────────────────────────────────────────────────────────

/-- C3, counterexample: on the spec's concrete flow, processing
`["yes", true, 11.5]` (11.5 = 115/10) from a fresh session terminates at `t1`,
not `t2`: 11.5 < 11.8, so the first branch `"< 11.8" → t1` matches. -/
theorem c3_scenario_counterexample :
    (runSession scenarioFlow "sid" (fun i => toString i)
      [.vstr "yes", .vbool true, .vnum (mkRat 115 10)]).1.terminal_node_id = some "t1" ∧
    (runSession scenarioFlow "sid" (fun i => toString i)
      [.vstr "yes", .vbool true, .vnum (mkRat 115 10)]).1.current_node_id ≠ "t2" ∧
    (runSession scenarioFlow "sid" (fun i => toString i)
      [.vstr "yes", .vbool true, .vnum (mkRat 115 10)]).1.completed = true :=
  ⟨rfl, by decide, rfl⟩

/-- C3, amended: on the spec's concrete flow, processing `["yes", true, 11.5]`
from a fresh session — for every generated session id and wall clock —
terminates the session at node `t1` (the first matching branch of `m1`, since
11.5 < 11.8), with 3 recorded response events plus one implicit terminal event
(`events.length = 4`) and the deterministic result `"Bad"` (`t1.result`). -/
theorem c3_scenario_amended (sid : String) (clock : ℕ → String) :
    (runSession scenarioFlow sid clock
      [.vstr "yes", .vbool true, .vnum (mkRat 115 10)]).1.completed = true ∧
    (runSession scenarioFlow sid clock
      [.vstr "yes", .vbool true, .vnum (mkRat 115 10)]).1.current_node_id = "t1" ∧
    (runSession scenarioFlow sid clock
      [.vstr "yes", .vbool true, .vnum (mkRat 115 10)]).1.terminal_node_id = some "t1" ∧
    (runSession scenarioFlow sid clock
      [.vstr "yes", .vbool true, .vnum (mkRat 115 10)]).1.events.length = 4 ∧
    (runSession scenarioFlow sid clock
      [.vstr "yes", .vbool true, .vnum (mkRat 115 10)]).1.result = some "Bad" := by
  have h0 : scrubState (startSession scenarioFlow sid (clock 0)).2 =
      scrubState (startSession scenarioFlow "sid" ((fun i => toString i) 0)).2 := rfl
  have hs := (@runSteps_congr scenarioFlow clock (fun i => toString i)
    [.vstr "yes", .vbool true, .vnum (mkRat 115 10)] 1 1 _ _ h0).1
  obtain ⟨h1, h2, h3, h4, h5, h6, h7, h8, h9, h10, h11, h12, h13⟩ := scrubState_fields hs
  have hlen : ∀ l l' : List SessionEvent, l.map scrubEvent = l'.map scrubEvent →
      l.length = l'.length := by
    intro l l' hl
    have := congrArg List.length hl
    simpa using this
  refine ⟨?_, ?_, ?_, ?_, ?_⟩
  · exact h5.trans (by rfl)
  · exact h3.trans (by rfl)
  · exact h7.trans (by rfl)
  · exact (hlen _ _ h4).trans (by rfl)
  · exact h8.trans (by rfl)

-- ─── C2 ──────────────────────────────────────────────────────────────────────

/-- Terminal processing never fails: its only internal guard
(`generateSummary` on an incomplete session) is unreachable because the state
it summarizes was just marked completed. -/
theorem processTerminalNode_ne_error (s : SessionState) (r : String) (a : Artifact)
    (ie : Option SessionEvent) (ts : String) (e : EngineError) :
    (processTerminalNode s r a ie ts).2 ≠ .error e := by
  simp [processTerminalNode, generateSummary, Except.map]

/-- Advancing to a resolved next node never fails. -/
theorem advanceState_ne_error (f : RawFlow) (s : SessionState) (ev : SessionEvent)
    (next ts : String) (e : EngineError) :
    (advanceState f s ev next ts).2 ≠ .error e := by
  simp only [advanceState]
  cases hl : lookupNode f next with
  | none => simp
  | some node => cases node <;> simp [processTerminalNode, generateSummary, Except.map]

/-- C2: whenever `processResponse` raises an engine error (invalid answer key,
non-numeric or out-of-range measure value, no matching branch, missing node),
the call has performed no storage write: the persisted state — and hence
`current_node_id` and the event log — is exactly what it was before the call. -/
theorem c2_error_atomicity (f : RawFlow) (s : SessionState) (v : Value) (ts : String)
    (e : EngineError) (h : (processResponse f s v ts).2 = .error e) :
    (processResponse f s v ts).1 = [] ∧
    (∀ st : Storage, applyWrites st (processResponse f s v ts).1 = st) := by
  have hw : (processResponse f s v ts).1 = [] := by
    revert h
    simp only [processResponse]
    cases hg : getCurrentNode f s with
    | error e' => simp only [hg]; exact fun _ => trivial
    | ok node =>
      simp only [hg]
      cases hv : validateResponse node v with
      | error e' => simp only [hv]; exact fun _ => trivial
      | ok u =>
        simp only [hv]
        cases node with
        | terminal r a =>
          exact fun h => absurd h
            (processTerminalNode_ne_error s r a (some (responseEventOf s (.terminal r a) v ts)) ts e)
        | question t ans =>
          cases hfind : (ans.find? (fun x => x.1 = valueToString v)).map (·.2) with
          | none => simp only [hfind]; exact fun _ => trivial
          | some next =>
            simp only [hfind]
            by_cases hne : next = ""
            · subst hne
              simp only [reduceIte]
              exact fun _ => trivial
            · simp only [hne, reduceIte]
              exact fun h => absurd h
                (advanceState_ne_error f s (responseEventOf s (.question t ans) v ts) next ts e)
        | safety t nx =>
          exact fun h => absurd h
            (advanceState_ne_error f s (responseEventOf s (.safety t nx) v ts) nx ts e)
        | measure t u r br =>
          cases hn : toNumber v with
          | none => simp only [hn]; exact fun _ => trivial
          | some q =>
            simp only [hn]
            cases hr : resolveMeasureBranch br q with
            | error e' => simp only [hr]; exact fun _ => trivial
            | ok o =>
              cases o with
              | none => simp only [hr]; exact fun _ => trivial
              | some next =>
                simp only [hr]
                exact fun h => absurd h
                  (advanceState_ne_error f s (responseEventOf s (.measure t u r br) v ts) next ts e)
  exact ⟨hw, fun st => by rw [hw]; rfl⟩

/-- Witness for C2: submitting the out-of-range measure value 9 at node `m1`
errors, and the call performs no storage write. -/
theorem c2_error_atomicity_witness :
    (processResponse scenarioFlow
      { (startSession scenarioFlow "sid" "t0").2 with current_node_id := "m1" }
      (.vnum 9) "t1").2 = .error (.valueOutOfRange 9 10 15) ∧
    (processResponse scenarioFlow
      { (startSession scenarioFlow "sid" "t0").2 with current_node_id := "m1" }
      (.vnum 9) "t1").1 = [] :=
  ⟨by rfl,
    (c2_error_atomicity scenarioFlow
      { (startSession scenarioFlow "sid" "t0").2 with current_node_id := "m1" }
      (.vnum 9) "t1" (.valueOutOfRange 9 10 15) (by rfl)).1⟩

-- ─── C4 ──────────────────────────────────────────────────────────────────────

/-- C4: for a measure node (with the validator-enforced `min < max`),
`processResponse` accepts a value exactly equal to `validRange.min` or
`validRange.max` (inclusive bounds: the response validation passes), and for
any value strictly below `min` or strictly above `max` it raises the
out-of-range engine error with no storage write — whatever the branch list,
so before any branch condition is evaluated. -/
theorem c4_measure_boundary (text : String) (unit : Option String) (r : ValidRange)
    (branches : List MeasureBranch) (hlt : r.min < r.max) :
    validateResponse (.measure text unit r branches) (.vnum r.min) = .ok () ∧
    validateResponse (.measure text unit r branches) (.vnum r.max) = .ok () ∧
    (∀ v : ℚ, v < r.min ∨ v > r.max →
      ∀ (f : RawFlow) (s : SessionState) (ts : String),
        lookupNode f s.current_node_id = some (.measure text unit r branches) →
        processResponse f s (.vnum v) ts = ([], .error (.valueOutOfRange v r.min r.max))) := by
  have hle : r.min ≤ r.max := le_of_lt hlt
  refine ⟨?_, ?_, ?_⟩
  · simp [validateResponse, toNumber, lt_irrefl, not_lt.mpr hle]
  · simp [validateResponse, toNumber, lt_irrefl, not_lt.mpr hle]
  · intro v hv f s ts hlook
    simp only [processResponse, getCurrentNode, hlook]
    simp [validateResponse, toNumber, hv]

/-- Witness for C4: on the scenario flow's measure node `m1` (range 10–15),
the boundary values 10 and 15 pass validation, and 9 is rejected with the
out-of-range error and no write. -/
theorem c4_measure_boundary_witness :
    validateResponse (.measure "Voltage" none ⟨10, 15⟩
      [⟨"< 11.8", "t1"⟩, ⟨">= 11.8", "t2"⟩]) (.vnum 10) = .ok () ∧
    validateResponse (.measure "Voltage" none ⟨10, 15⟩
      [⟨"< 11.8", "t1"⟩, ⟨">= 11.8", "t2"⟩]) (.vnum 15) = .ok () ∧
    processResponse scenarioFlow
      { (startSession scenarioFlow "sid" "t0").2 with current_node_id := "m1" }
      (.vnum 9) "t1" = ([], .error (.valueOutOfRange 9 10 15)) := by
  have h := c4_measure_boundary "Voltage" none ⟨10, 15⟩
    [⟨"< 11.8", "t1"⟩, ⟨">= 11.8", "t2"⟩] (by decide)
  exact ⟨h.1, h.2.1, h.2.2 9 (by decide) scenarioFlow
    { (startSession scenarioFlow "sid" "t0").2 with current_node_id := "m1" } "t1" (by rfl)⟩

-- ─── C5 ──────────────────────────────────────────────────────────────────────

/-- `resolveMeasureBranch` refines the spec-side first-matching-branch
selection whenever every condition parses. -/
theorem resolveMeasureBranch_eq_spec (branches : List MeasureBranch) (v : ℚ)
    (hparse : ∀ b ∈ branches, (evaluateCondition b.condition v).isOk = true) :
    resolveMeasureBranch branches v = .ok (specFirstMatchingBranch branches v) := by
  induction branches with
  | nil => rfl
  | cons b rest ih =>
    have hb := hparse b (List.mem_cons_self ..)
    obtain ⟨bv, hbv⟩ : ∃ bv, evaluateCondition b.condition v = .ok bv := by
      cases hx : evaluateCondition b.condition v with
      | error e => rw [hx] at hb; simp [Except.isOk, Except.toBool] at hb
      | ok bv => exact ⟨bv, rfl⟩
    have ih2 := ih (fun c hc => hparse c (List.mem_cons_of_mem _ hc))
    cases bv with
    | true =>
      simp [resolveMeasureBranch, hbv, specFirstMatchingBranch, List.find?_cons, condHolds]
    | false =>
      simp only [resolveMeasureBranch, hbv]
      simpa [specFirstMatchingBranch, List.find?_cons, condHolds, hbv] using ih2

/-- C5: for a measure node and an in-range numeric value whose conditions all
parse, branch resolution evaluates the branch list in declaration order and
selects the next node of the first branch whose condition is true
(`resolveMeasureBranch` equals the spec-side first-match selection); and when
no branch condition is true, `processResponse` raises the no-branch-matched
runtime engine error (an `EngineError`, not a validation error). -/
theorem c5_branch_resolution (branches : List MeasureBranch) (v : ℚ)
    (hparse : ∀ b ∈ branches, (evaluateCondition b.condition v).isOk = true) :
    resolveMeasureBranch branches v = .ok (specFirstMatchingBranch branches v) ∧
    (specFirstMatchingBranch branches v = none →
      ∀ (f : RawFlow) (s : SessionState) (text : String) (unit : Option String)
        (r : ValidRange) (ts : String),
        lookupNode f s.current_node_id = some (.measure text unit r branches) →
        ¬(v < r.min ∨ v > r.max) →
        processResponse f s (.vnum v) ts =
          ([], .error (.noBranchMatched s.current_node_id v
            (branches.map (·.condition))))) := by
  have h1 := resolveMeasureBranch_eq_spec branches v hparse
  refine ⟨h1, ?_⟩
  intro hnone f s text unit r ts hlook hrange
  simp only [processResponse, getCurrentNode, hlook]
  simp [validateResponse, toNumber, hrange, h1, hnone]

/-- Witness for C5: on the scenario flow's branches, 11.5 selects the first
matching branch; and on `gapFlow` (which validates despite non-exhaustive
branches) the in-range value 12 matches no branch and raises the runtime
no-branch-matched error. -/
theorem c5_branch_resolution_witness :
    resolveMeasureBranch [⟨"< 11.8", "t1"⟩, ⟨">= 11.8", "t2"⟩] (mkRat 115 10) =
      .ok (specFirstMatchingBranch [⟨"< 11.8", "t1"⟩, ⟨">= 11.8", "t2"⟩] (mkRat 115 10)) ∧
    FlowValidator.validate gapFlow = .ok () ∧
    processResponse gapFlow (startSession gapFlow "sid" "t0").2 (.vnum 12) "t1" =
      ([], .error (.noBranchMatched "m1" 12 ["< 11"])) :=
  ⟨(c5_branch_resolution [⟨"< 11.8", "t1"⟩, ⟨">= 11.8", "t2"⟩] (mkRat 115 10) (by decide)).1,
   by rfl,
   (c5_branch_resolution [⟨"< 11", "t1"⟩] 12 (by decide)).2 (by rfl) gapFlow
     (startSession gapFlow "sid" "t0").2 "Voltage" none ⟨10, 15⟩ "t1" (by rfl) (by decide)⟩

-- ─── C6 ──────────────────────────────────────────────────────────────────────

/-- Fail-fast iteration succeeding means every element's check succeeded. -/
theorem exceptForEach_mem {α ε : Type} (g : α → Except ε Unit) {l : List α}
    (h : exceptForEach g l = .ok ()) {a : α} (ha : a ∈ l) : g a = .ok () := by
  induction l with
  | nil => cases ha
  | cons b rest ih =>
    simp only [exceptForEach] at h
    cases hb : g b with
    | error e => rw [hb] at h; cases h
    | ok u =>
      cases u
      rw [hb] at h
      cases ha with
      | head => exact hb
      | tail _ hm => exact ih h hm

/-- A succeeding branch validation probed every condition at the sentinel 0. -/
theorem validateMeasureBranches_probe {nodeId : String} {allIds : List String} :
    ∀ {i : ℕ} {branches : List MeasureBranch},
    validateMeasureBranches nodeId allIds i branches = .ok () →
    ∀ b ∈ branches, (evaluateCondition b.condition 0).isOk = true := by
  intro i branches
  induction branches generalizing i with
  | nil => intro _ b hb; cases hb
  | cons b rest ih =>
    intro h c hc
    simp only [validateMeasureBranches] at h
    by_cases h1 : b.condition = ""
    · simp [h1] at h
    by_cases h2 : b.next = ""
    · simp [h1, h2] at h
    by_cases h3 : b.next ∈ allIds
    · rw [if_neg h1, if_neg h2, if_neg (not_not_intro h3)] at h
      cases hev : evaluateCondition b.condition 0 with
      | error e => rw [hev] at h; cases h
      | ok u =>
        rw [hev] at h
        cases hc with
        | head => simp [hev, Except.isOk, Except.toBool]
        | tail _ hm => exact ih h c hm
    · simp [h1, h2, h3] at h

/-- Whether a condition string parses — and hence whether its evaluation
succeeds — is independent of the numeric value it is evaluated against. -/
theorem evaluateCondition_isOk_indep (c : String) (v w : ℚ) :
    (evaluateCondition c v).isOk = (evaluateCondition c w).isOk := by
  simp only [evaluateCondition]
  cases parseCondition c with
  | none => rfl
  | some p =>
    obtain ⟨op, th⟩ := p
    simp only [applyOperator]
    split_ifs <;> rfl

/-- C6: for every flow accepted by `validate`, every branch condition of every
measure node evaluates without a parse error against every numeric value: the
validator's sentinel probe at 0 guarantees parseability, and parse success is
value-independent. -/
theorem c6_condition_parse_stability (f : RawFlow)
    (hval : FlowValidator.validate f = .ok ())
    (id text : String) (unit : Option String) (r : ValidRange)
    (branches : List MeasureBranch)
    (hmem : (id, Node.measure text unit r branches) ∈ resolveNodes f) :
    ∀ b ∈ branches, ∀ v : ℚ, (evaluateCondition b.condition v).isOk = true := by
  have hnodes : validateNodes f.entries = .ok () := by
    simp only [FlowValidator.validate, bind, Except.bind] at hval
    cases h1 : validateTopLevel f with
    | error e => rw [h1] at hval; cases hval
    | ok u =>
      cases u
      rw [h1] at hval
      cases h2 : validateNodes f.entries with
      | error e => rw [h2] at hval; cases hval
      | ok u => cases u; rfl
  have hnode : validateNode id (.measure text unit r branches) (f.entries.map (·.1)) = .ok () := by
    have hm : (id, Node.measure text unit r branches) ∈ f.entries := hmem
    simpa using exceptForEach_mem (fun e => validateNode e.1 e.2 (f.entries.map (·.1)))
      (by simpa [validateNodes] using hnodes) hm
  simp only [validateNode, validateMeasureNode] at hnode
  by_cases h1 : text = ""
  · simp [h1] at hnode
  by_cases h2 : r.min ≥ r.max
  · simp [h1, h2] at hnode
  by_cases h3 : branches.isEmpty
  · simp [h1, h2, h3] at hnode
  rw [if_neg h1, if_neg h2, if_neg h3] at hnode
  intro b hb v
  rw [evaluateCondition_isOk_indep b.condition v 0]
  exact validateMeasureBranches_probe hnode b hb

/-- Witness for C6: the scenario flow validates; its measure node's second
branch condition evaluates without error at the arbitrary value 42. -/
theorem c6_condition_parse_stability_witness :
    (evaluateCondition ">= 11.8" (42 : ℚ)).isOk = true :=
  c6_condition_parse_stability scenarioFlow (by rfl) "m1" "Voltage" none ⟨10, 15⟩
    [⟨"< 11.8", "t1"⟩, ⟨">= 11.8", "t2"⟩] (by decide) ⟨">= 11.8", "t2"⟩ (by decide) 42

-- ─── C8 ──────────────────────────────────────────────────────────────────────

/-- C8, counterexample: the same well-formed flow validates in the
dictionary-of-objects encoding but is rejected in the tagged-array encoding —
the validator does not normalize the array encoding, it refuses it. -/
theorem c8_encoding_counterexample :
    FlowValidator.validate scenarioFlow = .ok () ∧
    scenarioFlowArray.nodes = .arr scenarioFlow.entries ∧
    FlowValidator.validate scenarioFlowArray = .error .nodesArrayFormat :=
  ⟨by rfl, by rfl, by rfl⟩

/-- C8, amended: validation accepts only the dictionary-of-objects encoding;
whenever the nodes are array-encoded (and the preceding top-level string
checks pass), `validate` rejects the flow with the explicit array-format
error, so only dictionary-encoded flows can validate and execute. -/
theorem c8_encoding_amended (f : RawFlow) (l : List (String × Node))
    (hid : f.flowId ≠ "") (hver : f.flowVersion ≠ "") (hstart : f.startNode ≠ "")
    (harr : f.nodes = .arr l) :
    FlowValidator.validate f = .error .nodesArrayFormat := by
  simp only [FlowValidator.validate, bind, Except.bind, validateTopLevel, harr]
  rw [if_neg hid, if_neg hver, if_neg hstart]

/-- Witness for C8 (amended): the array-encoded scenario flow is rejected. -/
theorem c8_encoding_amended_witness :
    FlowValidator.validate scenarioFlowArray = .error .nodesArrayFormat :=
  c8_encoding_amended scenarioFlowArray scenarioFlow.entries (by decide) (by decide)
    (by decide) rfl

-- ─── C9 ──────────────────────────────────────────────────────────────────────

/-- C9, counterexample: stopping a fresh session marks it stopped but appends
no event — the event log stays empty, so no stop event is recorded. -/
theorem c9_stop_event_counterexample :
    (stopSession scenarioFlow (startSession scenarioFlow "sid" "t0").2 "t1").2.stopped = true ∧
    (stopSession scenarioFlow (startSession scenarioFlow "sid" "t0").2 "t1").2.events = [] :=
  ⟨rfl, rfl⟩

/-- C9, amended: reaching a terminal node appends exactly one terminal event,
but `stopSession` appends no event — the stop is recorded only through the
`stopped` flag, `stop_node_id`, the partial artifact and the stop summary. -/
theorem c9_stop_event_amended (f : RawFlow) (s : SessionState) (ts : String)
    (r : String) (a : Artifact) :
    (stopSession f s ts).2.events = s.events ∧
    (stopSession f s ts).2.stop_node_id = some s.current_node_id ∧
    (∀ cs, (processTerminalNode s r a none ts).2 = .ok cs →
      cs.events = s.events ++ [terminalEventOf s ts]) := by
  refine ⟨rfl, rfl, ?_⟩
  intro cs hcs
  simp only [processTerminalNode, generateSummary, Except.map] at hcs
  cases hcs
  rfl

/-- Witness for C9 (amended): at a fresh scenario session, stopping leaves the
event log empty, while terminal processing appends the implicit terminal
event. -/
theorem c9_stop_event_amended_witness :
    (stopSession scenarioFlow (startSession scenarioFlow "s" "t").2 "t").2.events =
      (startSession scenarioFlow "s" "t").2.events ∧
    ((processTerminalNode (startSession scenarioFlow "s" "t").2 "Bad" t1Artifact
        none "t").2.map SessionState.events) =
      .ok ((startSession scenarioFlow "s" "t").2.events ++
        [terminalEventOf (startSession scenarioFlow "s" "t").2 "t"]) := by
  have h := c9_stop_event_amended scenarioFlow (startSession scenarioFlow "s" "t").2 "t"
    "Bad" t1Artifact
  refine ⟨h.1, ?_⟩
  cases hr : (processTerminalNode (startSession scenarioFlow "s" "t").2 "Bad" t1Artifact
      none "t").2 with
  | error e =>
    exact absurd hr (processTerminalNode_ne_error (startSession scenarioFlow "s" "t").2
      "Bad" t1Artifact none "t" e)
  | ok cs => simp [Except.map, h.2.2 cs hr]

-- ─── C10 ─────────────────────────────────────────────────────────────────────

/-- Terminal processing marks the state completed and explicitly not
stopped. -/
theorem processTerminalNode_flags {s : SessionState} {r : String} {a : Artifact}
    {ie : Option SessionEvent} {ts : String} {cs : SessionState}
    (h : (processTerminalNode s r a ie ts).2 = .ok cs) :
    cs.completed = true ∧ cs.stopped = false := by
  simp only [processTerminalNode, generateSummary, Except.map, reduceIte] at h
  cases h
  exact ⟨rfl, rfl⟩

/-- A successful advance either copies both flags or completes the session. -/
theorem advanceState_flags {f : RawFlow} {s : SessionState} {ev : SessionEvent}
    {next ts : String} {s' : SessionState}
    (h : (advanceState f s ev next ts).2 = .ok s') :
    (s'.completed = s.completed ∧ s'.stopped = s.stopped) ∨
    (s'.completed = true ∧ s'.stopped = false) := by
  simp only [advanceState] at h
  cases hl : lookupNode f next with
  | none => rw [hl] at h; cases h; exact .inl ⟨rfl, rfl⟩
  | some node =>
    cases node with
    | terminal r a =>
      rw [hl] at h
      exact .inr (processTerminalNode_flags h)
    | question t ans => rw [hl] at h; cases h; exact .inl ⟨rfl, rfl⟩
    | safety t nx => rw [hl] at h; cases h; exact .inl ⟨rfl, rfl⟩
    | measure t u r br => rw [hl] at h; cases h; exact .inl ⟨rfl, rfl⟩

/-- A successful transition either copies both flags or completes the
session. -/
theorem processResponse_ok_flags {f : RawFlow} {s : SessionState} {v : Value}
    {ts : String} {s' : SessionState}
    (h : (processResponse f s v ts).2 = .ok s') :
    (s'.completed = s.completed ∧ s'.stopped = s.stopped) ∨
    (s'.completed = true ∧ s'.stopped = false) := by
  revert h
  simp only [processResponse]
  cases hg : getCurrentNode f s with
  | error e => intro h; cases h
  | ok node =>
    simp only [hg]
    cases hv : validateResponse node v with
    | error e => intro h; cases h
    | ok u =>
      simp only [hv]
      cases node with
      | terminal r a => exact fun h => .inr (processTerminalNode_flags h)
      | question t ans =>
        cases hfind : (ans.find? (fun x => x.1 = valueToString v)).map (·.2) with
        | none => simp only [hfind]; intro h; cases h
        | some next =>
          simp only [hfind]
          by_cases hne : next = ""
          · subst hne
            simp only [reduceIte]
            intro h; cases h
          · simp only [hne, reduceIte]
            exact fun h => advanceState_flags h
      | safety t nx => exact fun h => advanceState_flags h
      | measure t u r br =>
        cases hn : toNumber v with
        | none => simp only [hn]; intro h; cases h
        | some q =>
          simp only [hn]
          cases hr : resolveMeasureBranch br q with
          | error e => simp only [hr]; intro h; cases h
          | ok o =>
            cases o with
            | none => simp only [hr]; intro h; cases h
            | some next => simp only [hr]; exact fun h => advanceState_flags h

/-- C10: along every lifecycle-reachable state (`startSession`, successful
`processResponse` steps, `stopSession` on non-completed states), `completed`
and `stopped` are never both true; terminal completion explicitly resets
`stopped`; and stopping a non-completed session leaves it non-completed. -/
theorem c10_completed_stopped_exclusive :
    (∀ (f : RawFlow) (s : SessionState), ReachableState f s →
      ¬(s.completed = true ∧ s.stopped = true)) ∧
    (∀ (s : SessionState) (r : String) (a : Artifact) (ie : Option SessionEvent)
      (ts : String) (cs : SessionState), (processTerminalNode s r a ie ts).2 = .ok cs →
      cs.stopped = false ∧ cs.completed = true) ∧
    (∀ (f : RawFlow) (s : SessionState) (ts : String), s.completed = false →
      (stopSession f s ts).2.completed = false ∧ (stopSession f s ts).2.stopped = true) := by
  refine ⟨?_, ?_, ?_⟩
  · intro f s hreach
    induction hreach with
    | start sid ts => simp [startSession]
    | @step s s' v ts ws hs h ih =>
      have h2 : (processResponse f s v ts).2 = .ok s' := by rw [h]
      rcases processResponse_ok_flags h2 with ⟨hc, hp⟩ | ⟨hc, hp⟩
      · intro hboth
        exact ih ⟨(hc.symm.trans hboth.1), (hp.symm.trans hboth.2)⟩
      · intro hboth
        exact Bool.noConfusion (hp.symm.trans hboth.2)
    | @stop s ts hs hnc ih =>
      intro hboth
      have h1 : (stopSession f s ts).2.completed = s.completed := rfl
      rw [h1, hnc] at hboth
      exact Bool.noConfusion hboth.1
  · intro s r a ie ts cs h
    exact ⟨(processTerminalNode_flags h).2, (processTerminalNode_flags h).1⟩
  · intro f s ts h
    exact ⟨h, rfl⟩

/-- Witness for C10: a fresh scenario session is reachable and not both
completed and stopped; its terminal processing yields `stopped = false`; and
stopping it yields `completed = false`. -/
theorem c10_completed_stopped_exclusive_witness :
    ¬((startSession scenarioFlow "s" "t").2.completed = true ∧
      (startSession scenarioFlow "s" "t").2.stopped = true) ∧
    ((processTerminalNode (startSession scenarioFlow "s" "t").2 "Bad" t1Artifact
        none "t").2.map SessionState.stopped) = .ok false ∧
    (stopSession scenarioFlow (startSession scenarioFlow "s" "t").2 "t").2.completed = false := by
  refine ⟨c10_completed_stopped_exclusive.1 scenarioFlow _ (.start "s" "t"), ?_, ?_⟩
  · cases hr : (processTerminalNode (startSession scenarioFlow "s" "t").2 "Bad" t1Artifact
        none "t").2 with
    | error e =>
      exact absurd hr (processTerminalNode_ne_error (startSession scenarioFlow "s" "t").2
        "Bad" t1Artifact none "t" e)
    | ok cs =>
      simp [Except.map,
        (c10_completed_stopped_exclusive.2.1 (startSession scenarioFlow "s" "t").2
          "Bad" t1Artifact none "t" cs hr).1]
  · exact (c10_completed_stopped_exclusive.2.2 scenarioFlow
      (startSession scenarioFlow "s" "t").2 "t" rfl).1

-- ─── C7 ──────────────────────────────────────────────────────────────────────

/-- Replacing all bindings of a key (or appending one) makes it the retrieved
value. -/
theorem find?_replace_isSome (a : Artifact) (k : String) (v : AValue)
    (h : (a.find? (fun e => e.1 = k)).isSome = true) :
    (a.map (fun e => if e.1 = k then (k, v) else e)).find? (fun e => e.1 = k) = some (k, v) := by
  induction a with
  | nil => simp at h
  | cons e rest ih =>
    by_cases he : e.1 = k
    · simp [List.find?_cons, he]
    · simp only [List.find?_cons, he, decide_False] at h ⊢
      simp only [List.map_cons, if_neg he]
      rw [List.find?_cons_of_neg _ (by simpa using he)]
      exact ih (by simpa [List.find?_cons, he] using h)

/-- Replacing the bindings of one key leaves lookups of other keys alone. -/
theorem find?_replace_ne (a : Artifact) (k k' : String) (v : AValue) (hne : ¬ k' = k) :
    (a.map (fun e => if e.1 = k then (k, v) else e)).find? (fun e => e.1 = k') =
      a.find? (fun e => e.1 = k') := by
  induction a with
  | nil => rfl
  | cons e rest ih =>
    by_cases he : e.1 = k
    · have hk' : ¬ e.1 = k' := by rw [he]; exact fun hh => hne hh.symm
      simp only [List.map_cons, if_pos he]
      rw [List.find?_cons_of_neg _ (by simpa using fun hh => hne hh.symm),
        List.find?_cons_of_neg _ (by simpa using hk'), ih]
    · simp only [List.map_cons, if_neg he]
      by_cases he' : e.1 = k'
      · rw [List.find?_cons_of_pos _ (by simpa using he'),
          List.find?_cons_of_pos _ (by simpa using he')]
      · rw [List.find?_cons_of_neg _ (by simpa using he'),
          List.find?_cons_of_neg _ (by simpa using he'), ih]

/-- JS assignment then read of the same key yields the assigned value. -/
theorem Artifact.get_set_same (a : Artifact) (k : String) (v : AValue) :
    (a.set k v).get k = some v := by
  unfold Artifact.set Artifact.get
  by_cases h : (a.find? (fun e => e.1 = k)).isSome
  · rw [if_pos h, find?_replace_isSome a k v h]
    rfl
  · rw [if_neg h, List.find?_append]
    have h0 : a.find? (fun e => e.1 = k) = none := Option.not_isSome_iff_eq_none.mp h
    simp [h0]

/-- JS assignment leaves reads of other keys unchanged. -/
theorem Artifact.get_set_ne (a : Artifact) (k k' : String) (v : AValue) (hne : ¬ k' = k) :
    (a.set k v).get k' = a.get k' := by
  unfold Artifact.set Artifact.get
  by_cases h : (a.find? (fun e => e.1 = k)).isSome
  · rw [if_pos h, find?_replace_ne a k k' v hne]
  · rw [if_neg h, List.find?_append]
    cases hf : a.find? (fun e => e.1 = k') with
    | some e => simp
    | none =>
      simp [hf]
      exact fun hh => hne hh.symm

/-- Reading a key-preserving map is mapping the read. -/
theorem get_map_fst (a : Artifact) (F : String × AValue → String × AValue)
    (hF : ∀ e, (F e).1 = e.1) (k : String) :
    Artifact.get (a.map F) k = (a.find? (fun e => e.1 = k)).map (fun e => (F e).2) := by
  unfold Artifact.get
  induction a with
  | nil => rfl
  | cons e rest ih =>
    by_cases he : e.1 = k
    · simp [List.find?_cons, hF e, he]
    · have h1 : ¬ ((fun x : String × AValue => decide (x.1 = k)) (F e) = true) := by
        simp [hF e, he]
      have h2 : ¬ ((fun x : String × AValue => decide (x.1 = k)) e = true) := by
        simp [he]
      simp only [List.map_cons]
      rw [List.find?_cons_of_neg (p := fun x : String × AValue => decide (x.1 = k)) _ h1,
        List.find?_cons_of_neg (p := fun x : String × AValue => decide (x.1 = k)) _ h2]
      exact ih

/-- With JS-object-unique keys, a key determines its value. -/
theorem keys_nodup_unique {T : List (String × AValue)} (hnd : (T.map (·.1)).Nodup)
    {k : String} {a b : AValue} (ha : (k, a) ∈ T) (hb : (k, b) ∈ T) : a = b := by
  induction T with
  | nil => cases ha
  | cons e rest ih =>
    have hnd' : (e.1 :: rest.map (·.1)).Nodup := by simpa using hnd
    obtain ⟨hh, ht⟩ := List.nodup_cons.mp hnd'
    rcases List.mem_cons.mp ha with rfl | ha'
    · rcases List.mem_cons.mp hb with heq | hb'
      · exact (congrArg Prod.snd heq).symm
      · exact absurd (List.mem_map_of_mem (·.1) hb') (by simpa using hh)
    · rcases List.mem_cons.mp hb with rfl | hb'
      · exact absurd (List.mem_map_of_mem (·.1) ha') (by simpa using hh)
      · exact ih ht ha' hb'

/-- A successful read exhibits a binding of the artifact. -/
theorem Artifact.get_mem {T : Artifact} {k : String} {tv : AValue}
    (h : T.get k = some tv) : (k, tv) ∈ T := by
  unfold Artifact.get at h
  cases hf : T.find? (fun e => e.1 = k) with
  | none => rw [hf] at h; cases h
  | some e =>
    rw [hf] at h
    have hm := List.mem_of_find?_eq_some hf
    have hp := List.find?_some hf
    have hk : e.1 = k := by simpa using hp
    have hv : e.2 = tv := by simpa using h
    have : e = (k, tv) := Prod.ext hk hv
    rwa [this] at hm


/-- The template-variable resolution pass leaves keys alone whose template
values are not brace-bearing strings. -/
theorem foldl_resolveStep_other (lk : String → Option Value) (k : String) :
    ∀ (T : List (String × AValue)) (acc : Artifact),
    (∀ sv, (k, AValue.str sv) ∈ T → ¬ containsOpenBraces sv.data = true) →
    (T.foldl (resolveStep lk) acc).get k = acc.get k := by
  intro T
  induction T with
  | nil => intro acc _; rfl
  | cons e rest ih =>
    intro acc h
    rcases e with ⟨k1, tv1⟩
    simp only [List.foldl_cons]
    have htail : ∀ sv, (k, AValue.str sv) ∈ rest → ¬ containsOpenBraces sv.data = true :=
      fun sv hm => h sv (List.mem_cons_of_mem _ hm)
    rw [ih _ htail]
    cases tv1 with
    | str sv1 =>
      by_cases hb : containsOpenBraces sv1.data
      · by_cases hk : k1 = k
        · subst hk
          exact absurd hb (h sv1 (List.mem_cons_self ..))
        · simp only [resolveStep, hb, if_pos]
          exact Artifact.get_set_ne _ k1 k _ (fun hh => hk hh.symm)
      · simp [resolveStep, hb]
    | arr l => rfl
    | num q => rfl
    | bool b => rfl

/-- The template-variable resolution pass rewrites a key whose (unique)
template value is a brace-bearing string to its resolved text. -/
theorem foldl_resolveStep_brace (lk : String → Option Value) (k : String) (sv : String) :
    ∀ (T : List (String × AValue)) (acc : Artifact),
    (T.map (·.1)).Nodup → (k, AValue.str sv) ∈ T → containsOpenBraces sv.data = true →
    (T.foldl (resolveStep lk) acc).get k =
      some (.str (replaceTemplateVars lk sv)) := by
  intro T
  induction T with
  | nil => intro acc _ hm _; cases hm
  | cons e rest ih =>
    intro acc hnd hm hb
    rcases e with ⟨k1, tv1⟩
    have hnd' : (k1 :: rest.map (·.1)).Nodup := by simpa using hnd
    obtain ⟨hh, ht⟩ := List.nodup_cons.mp hnd'
    simp only [List.foldl_cons]
    rcases List.mem_cons.mp hm with heq | hm'
    · have hk1 : k1 = k := (congrArg Prod.fst heq).symm
      have htv : tv1 = AValue.str sv := (congrArg Prod.snd heq).symm
      subst hk1
      subst htv
      have hnorest : ∀ sv', (k1, AValue.str sv') ∈ rest → ¬ containsOpenBraces sv'.data = true := by
        intro sv' hm'
        exact absurd (List.mem_map_of_mem (·.1) hm') (by simpa using hh)
      rw [foldl_resolveStep_other lk k1 rest _ hnorest]
      simp only [resolveStep, hb, if_pos]
      exact Artifact.get_set_same ..
    · exact ih _ ht hm' hb


/-- A validated flow passed all four validator stages. -/
theorem validate_parts {f : RawFlow} (h : FlowValidator.validate f = .ok ()) :
    validateTopLevel f = .ok () ∧ validateNodes f.entries = .ok () ∧
    validateReachability f.startNode f.entries = .ok () ∧
    validateHasTerminal f.entries = .ok () := by
  simp only [FlowValidator.validate, bind, Except.bind] at h
  cases h1 : validateTopLevel f with
  | error e => rw [h1] at h; cases h
  | ok u =>
    cases u
    rw [h1] at h
    cases h2 : validateNodes f.entries with
    | error e => rw [h2] at h; cases h
    | ok u =>
      cases u
      rw [h2] at h
      cases h3 : validateReachability f.startNode f.entries with
      | error e => rw [h3] at h; cases h
      | ok u =>
        cases u
        rw [h3] at h
        exact ⟨rfl, rfl, rfl, h⟩

/-- If some node is terminal, the first-terminal scan finds an artifact. -/
theorem any_terminal_first {entries : List (String × Node)}
    (h : entries.any (fun e => e.2.typeTag = "TERMINAL") = true) :
    ∃ art, firstTerminalArtifact entries = some art := by
  induction entries with
  | nil => simp at h
  | cons e rest ih =>
    rcases e with ⟨id, node⟩
    cases node with
    | terminal r a => exact ⟨a, rfl⟩
    | question t ans =>
      simp only [List.any_cons, Node.typeTag] at h
      exact ih (by simpa using h)
    | safety t nx =>
      simp only [List.any_cons, Node.typeTag] at h
      exact ih (by simpa using h)
    | measure t u r br =>
      simp only [List.any_cons, Node.typeTag] at h
      exact ih (by simpa using h)

/-- The first-terminal scan returns the artifact of some terminal entry. -/
theorem firstTerminalArtifact_mem {entries : List (String × Node)} {art : Artifact}
    (h : firstTerminalArtifact entries = some art) :
    ∃ id r, (id, Node.terminal r art) ∈ entries := by
  induction entries with
  | nil => cases h
  | cons e rest ih =>
    rcases e with ⟨id, node⟩
    cases node with
    | terminal r a =>
      have : a = art := by simpa [firstTerminalArtifact] using h
      exact ⟨id, r, by rw [this]; exact List.mem_cons_self ..⟩
    | question t ans =>
      obtain ⟨id', r', hm⟩ := ih (by simpa [firstTerminalArtifact] using h)
      exact ⟨id', r', List.mem_cons_of_mem _ hm⟩
    | safety t nx =>
      obtain ⟨id', r', hm⟩ := ih (by simpa [firstTerminalArtifact] using h)
      exact ⟨id', r', List.mem_cons_of_mem _ hm⟩
    | measure t u r br =>
      obtain ⟨id', r', hm⟩ := ih (by simpa [firstTerminalArtifact] using h)
      exact ⟨id', r', List.mem_cons_of_mem _ hm⟩

/-- A validated artifact carries all six universal fields as strings. -/
theorem validateArtifact_universal {nodeId : String} {artifact : Artifact}
    (h : validateArtifact nodeId artifact = .ok ()) :
    ∀ fld ∈ universalRequiredFields, ∃ sv, artifact.get fld = some (.str sv) := by
  have hch : exceptForEach (fun field =>
      match artifact.get field with
      | none => Except.error (VErr.artifactMissingField nodeId field)
      | some (AValue.str _) => Except.ok ()
      | some _ => Except.error (VErr.artifactFieldNotString nodeId field))
      universalRequiredFields = Except.ok () := by
    revert h
    simp only [validateArtifact]
    cases hx : exceptForEach (fun field =>
        match artifact.get field with
        | none => Except.error (VErr.artifactMissingField nodeId field)
        | some (AValue.str _) => Except.ok ()
        | some _ => Except.error (VErr.artifactFieldNotString nodeId field))
        universalRequiredFields with
    | error e => intro h; cases h
    | ok u => cases u; intro _; rfl
  intro fld hf
  have hone := exceptForEach_mem _ hch hf
  cases hg : artifact.get fld with
  | none => rw [hg] at hone; cases hone
  | some av =>
    rw [hg] at hone
    cases av with
    | str sv => exact ⟨sv, rfl⟩
    | arr l => cases hone
    | num q => cases hone
    | bool b => cases hone

/-- For a validated flow, the STOP template artifact carries all six
universal fields as strings. -/
theorem template_universal {f : RawFlow} (hval : FlowValidator.validate f = .ok ()) :
    ∀ fld ∈ universalRequiredFields, ∃ sv, (getTemplateArtifact f).get fld = some (.str sv) := by
  obtain ⟨_, hnodes, _, hterm⟩ := validate_parts hval
  have hany : f.entries.any (fun e => e.2.typeTag = "TERMINAL") = true := by
    revert hterm
    simp only [validateHasTerminal]
    by_cases hx : f.entries.any (fun e => e.2.typeTag = "TERMINAL") = true
    · exact fun _ => hx
    · rw [if_neg hx]; intro h; cases h
  obtain ⟨art, hart⟩ := any_terminal_first hany
  have htmpl : getTemplateArtifact f = art := by
    simp [getTemplateArtifact, resolveNodes, hart]
  obtain ⟨id, r0, hmem⟩ := firstTerminalArtifact_mem hart
  have hnode : validateNode id (.terminal r0 art) (f.entries.map (·.1)) = .ok () := by
    simpa using exceptForEach_mem (fun e => validateNode e.1 e.2 (f.entries.map (·.1)))
      (by simpa [validateNodes] using hnodes) hmem
  have hartok : validateArtifact id art = .ok () := by
    revert hnode
    simp only [validateNode, validateTerminalNode]
    by_cases hr : r0 = ""
    · rw [if_pos hr]; intro h; cases h
    · rw [if_neg hr]; exact fun h => h
  rw [htmpl]
  exact validateArtifact_universal hartok


/-- C7, amended: for every validated flow (whose template artifact has
JS-object-unique keys), any session state and any instant, `stopSession`
carries the synthesized partial artifact, in which all six universal fields
are present as (non-null) strings, and every non-universal template field is
defaulted as follows: array-valued template fields become `[]`; string fields
without a `\x7b\x7b` reference and non-string fields become `"Unknown"`; and
string fields with `\x7b\x7b...\x7d\x7d` references become the template text with
each reference resolved against the event log (`"Unknown"` for unvisited
nodes) — so a not-yet-collected field with a mixed-text template is not the
literal `"Unknown"`. -/
theorem c7_stop_artifact_amended (f : RawFlow) (hval : FlowValidator.validate f = .ok ())
    (hnd : ((getTemplateArtifact f).map (·.1)).Nodup) (s : SessionState) (ts : String) :
    (stopSession f s ts).2.stoppedArtifact = some (buildStopArtifact f s) ∧
    (∀ fld ∈ universalRequiredFields,
      ∃ sv, (buildStopArtifact f s).get fld = some (.str sv)) ∧
    (∀ k tv, (getTemplateArtifact f).get k = some tv → ¬ k ∈ universalRequiredFields →
      ((∀ l, tv = .arr l → (buildStopArtifact f s).get k = some (.arr [])) ∧
       (∀ sv, tv = .str sv → containsOpenBraces sv.data = false →
         (buildStopArtifact f s).get k = some (.str "Unknown")) ∧
       (∀ sv, tv = .str sv → containsOpenBraces sv.data = true →
         (buildStopArtifact f s).get k =
           some (.str (replaceTemplateVars (lastEventValue s.events) sv))) ∧
       (∀ q, tv = .num q → (buildStopArtifact f s).get k = some (.str "Unknown")) ∧
       (∀ b, tv = .bool b → (buildStopArtifact f s).get k = some (.str "Unknown")))) := by
  have hF : ∀ e, (defaultStopField e).1 = e.1 := by
    intro e
    unfold defaultStopField
    split <;> rfl
  refine ⟨rfl, ?_, ?_⟩
  all_goals
    set T := getTemplateArtifact f with hT
    set lk := lastEventValue s.events with hlk
    set W : Artifact := Artifact.set (Artifact.set (Artifact.set (T.map defaultStopField)
        "stop_reason" (AValue.str ("User stopped diagnostic at node: " ++ s.current_node_id)))
      "last_confirmed_state" (AValue.str (buildLastConfirmedState s)))
      "safety_notes" (AValue.str "") with hW
    have hB : buildStopArtifact f s = T.foldl (resolveStep lk) W := rfl
    have hother : ∀ k tv, T.get k = some tv →
        (∀ sv, tv = AValue.str sv → containsOpenBraces sv.data = false) →
        Artifact.get (buildStopArtifact f s) k = Artifact.get W k := by
      intro k tv hg hcond
      rw [hB]
      apply foldl_resolveStep_other
      intro sv' hm' hb'
      have he := keys_nodup_unique hnd hm' (Artifact.get_mem hg)
      have := hcond sv' he.symm
      rw [this] at hb'
      cases hb'
    have hbrace : ∀ k sv0, T.get k = some (.str sv0) → containsOpenBraces sv0.data = true →
        (buildStopArtifact f s).get k = some (.str (replaceTemplateVars lk sv0)) := by
      intro k sv0 hg hb
      rw [hB]
      exact foldl_resolveStep_brace lk k sv0 T W hnd (Artifact.get_mem hg) hb
    have hWother : ∀ k, ¬ k = "safety_notes" → ¬ k = "last_confirmed_state" →
        ¬ k = "stop_reason" →
        Artifact.get W k = Artifact.get (T.map defaultStopField) k := by
      intro k h1 h2 h3
      rw [hW, Artifact.get_set_ne _ _ _ _ h1, Artifact.get_set_ne _ _ _ _ h2,
        Artifact.get_set_ne _ _ _ _ h3]
    have hdef : ∀ k tv, T.get k = some tv →
        Artifact.get (T.map defaultStopField) k =
          some (if k ∈ stopUniversalFields then tv
            else match tv with | .arr _ => .arr [] | _ => .str "Unknown") := by
      intro k tv hg
      rw [get_map_fst _ _ hF k]
      unfold Artifact.get at hg
      cases hf : T.find? (fun e => e.1 = k) with
      | none => rw [hf] at hg; cases hg
      | some e0 =>
        rw [hf] at hg
        have hk : e0.1 = k := by simpa using List.find?_some hf
        have hv : e0.2 = tv := by simpa using hg
        simp only [Option.map_some']
        unfold defaultStopField
        rw [hk, hv]
        split <;> simp_all
  -- universal fields
  · intro fld hf
    obtain ⟨sv0, hsv0⟩ := template_universal hval fld hf
    rw [← hT] at hsv0
    by_cases hb : containsOpenBraces sv0.data
    · exact ⟨_, hbrace fld sv0 hsv0 hb⟩
    · have hcond : ∀ sv, AValue.str sv0 = AValue.str sv → containsOpenBraces sv.data = false := by
        intro sv he
        cases he
        simpa using hb
      have hWk := hother fld (.str sv0) hsv0 (fun sv he => hcond sv he)
      simp only [universalRequiredFields, List.mem_cons, List.not_mem_nil, or_false] at hf
      rcases hf with rfl | rfl | rfl | rfl | rfl | rfl
      · refine ⟨sv0, ?_⟩
        rw [hWk, hWother _ (by decide) (by decide) (by decide), hdef _ _ hsv0]
        simp [stopUniversalFields]
      · refine ⟨sv0, ?_⟩
        rw [hWk, hWother _ (by decide) (by decide) (by decide), hdef _ _ hsv0]
        simp [stopUniversalFields]
      · refine ⟨sv0, ?_⟩
        rw [hWk, hWother _ (by decide) (by decide) (by decide), hdef _ _ hsv0]
        simp [stopUniversalFields]
      · refine ⟨"User stopped diagnostic at node: " ++ s.current_node_id, ?_⟩
        rw [hWk, hW, Artifact.get_set_ne _ _ _ _ (by decide),
          Artifact.get_set_ne _ _ _ _ (by decide), Artifact.get_set_same]
      · refine ⟨buildLastConfirmedState s, ?_⟩
        rw [hWk, hW, Artifact.get_set_ne _ _ _ _ (by decide), Artifact.get_set_same]
      · refine ⟨"", ?_⟩
        rw [hWk, hW, Artifact.get_set_same]
  -- non-universal fields
  · intro k tv hg hnu
    have hks : ¬ k = "safety_notes" := fun he => hnu (by rw [he]; decide)
    have hkl : ¬ k = "last_confirmed_state" := fun he => hnu (by rw [he]; decide)
    have hkr : ¬ k = "stop_reason" := fun he => hnu (by rw [he]; decide)
    have hkst : ¬ k ∈ stopUniversalFields := by
      intro hh
      apply hnu
      simp only [stopUniversalFields, List.mem_cons, List.not_mem_nil, or_false] at hh
      rcases hh with rfl | rfl | rfl | rfl <;> decide
    refine ⟨?_, ?_, ?_, ?_, ?_⟩
    · rintro l rfl
      rw [hother k _ hg (by rintro sv ⟨⟩), hWother _ hks hkl hkr, hdef _ _ hg,
        if_neg hkst]
    · rintro sv rfl hb
      rw [hother k _ hg (by rintro sv' ⟨⟩; simpa using hb), hWother _ hks hkl hkr,
        hdef _ _ hg, if_neg hkst]
    · rintro sv rfl hb
      exact hbrace k sv hg hb
    · rintro q rfl
      rw [hother k _ hg (by rintro sv ⟨⟩), hWother _ hks hkl hkr, hdef _ _ hg,
        if_neg hkst]
    · rintro b rfl
      rw [hother k _ hg (by rintro sv ⟨⟩), hWother _ hks hkl hkr, hdef _ _ hg,
        if_neg hkst]


/-- C7, counterexample: stopping a fresh session of the scenario flow leaves
the flow-specific field `volt` — whose template value is the string
`"\x7b\x7bm1.value\x7d\x7d V"`, not a list — equal to `"Unknown V"`, which is
neither `"Unknown"` nor `[]`, although it was never collected (the event log
is empty). -/
theorem c7_stop_artifact_counterexample :
    (startSession scenarioFlow "sid" "t0").2.events = [] ∧
    (getTemplateArtifact scenarioFlow).get "volt" =
      some (.str "\x7b\x7bm1.value\x7d\x7d V") ∧
    (buildStopArtifact scenarioFlow (startSession scenarioFlow "sid" "t0").2).get "volt" =
      some (.str "Unknown V") ∧
    ¬ (buildStopArtifact scenarioFlow (startSession scenarioFlow "sid" "t0").2).get "volt" =
      some (.str "Unknown") :=
  ⟨rfl, rfl, rfl, by decide⟩

/-- Witness for C7 (amended): on the scenario flow at a fresh session, the
stopped state carries the artifact, `issue` is a string, and `volt` resolves
its template reference. -/
theorem c7_stop_artifact_amended_witness :
    (stopSession scenarioFlow (startSession scenarioFlow "sid" "t0").2 "t1").2.stoppedArtifact =
      some (buildStopArtifact scenarioFlow (startSession scenarioFlow "sid" "t0").2) ∧
    (∃ sv, (buildStopArtifact scenarioFlow
      (startSession scenarioFlow "sid" "t0").2).get "issue" = some (.str sv)) ∧
    (buildStopArtifact scenarioFlow (startSession scenarioFlow "sid" "t0").2).get "volt" =
      some (.str (replaceTemplateVars
        (lastEventValue (startSession scenarioFlow "sid" "t0").2.events)
        "\x7b\x7bm1.value\x7d\x7d V")) := by
  have h := c7_stop_artifact_amended scenarioFlow (by rfl) (by decide)
    (startSession scenarioFlow "sid" "t0").2 "t1"
  exact ⟨h.1, h.2.1 "issue" (by decide),
    (h.2.2 "volt" (.str "\x7b\x7bm1.value\x7d\x7d V") (by rfl) (by decide)).2.2.1
      "\x7b\x7bm1.value\x7d\x7d V" rfl (by rfl)⟩

end Diag

